import Mathlib

/-
Verification of the Fresto pipeline scripts (fresto_report_token.py and
fresto_to_bigquery.py): a shallow embedding of the pagination loop, token
acquisition, the pandas-style left merges of build_report, the enrich step
and the load/write phases, together with theorems about the specified
behaviour.
-/

set_option autoImplicit false

namespace Fresto

/-- A scalar JSON value as it appears in a record field. -/
inductive Value where
  | str (s : String)
  | num (n : Int)
  | null
deriving DecidableEq, Repr

/-- A record: a JSON object, a mapping from field name to scalar value,
in field order.  Duplicate names never arise from the API; lookups take the
first occurrence. -/
abbrev Record := List (String × Value)

/-- Field lookup in a record (first occurrence). -/
def getField (r : Record) (k : String) : Option Value :=
  (r.find? (fun kv => kv.1 == k)).map (fun kv => kv.2)

/-- Deduplication keeping the first occurrence of each element (elements
already seen are dropped), as pandas does for column sets and
drop_duplicates. -/
def dedupFirstAux {α : Type} [DecidableEq α] (seen : List α) : List α → List α
  | [] => []
  | a :: l => if a ∈ seen then dedupFirstAux seen l else a :: dedupFirstAux (a :: seen) l

/-- Deduplication keeping the first occurrence of each element. -/
def dedupFirst {α : Type} [DecidableEq α] (l : List α) : List α :=
  dedupFirstAux [] l

/-- The column set of a collection of records, in first-appearance order,
as pandas.DataFrame(list_of_dicts) computes it. -/
def cols (rows : List Record) : List String :=
  dedupFirst (rows.flatMap (fun r => r.map Prod.fst))

/-- DataFrame emptiness: true when either axis has length 0. -/
def dfEmpty (rows : List Record) : Bool :=
  rows.isEmpty || (cols rows).isEmpty

/-- pandas.DataFrame(list_of_dicts): every row is normalized to the full
column set, missing fields padded with null (NaN). -/
def toDF (rows : List Record) : List Record :=
  rows.map (fun r => (cols rows).map (fun c => (c, (getField r c).getD Value.null)))

/-- The JSON body of a page response: an object (with or without a data
field), a bare array, or no content at all. -/
inductive Body where
  | obj (data : Option (List Record))
  | arr (xs : List Record)
  | empty
deriving DecidableEq, Repr

/-- A page response: HTTP status plus parsed body. -/
structure Response where
  status : Nat
  body : Body
deriving DecidableEq, Repr

/-- How a fetch fails: a SystemExit carrying the status (and, when the
message includes r.text, the body), or an uncaught AttributeError. -/
inductive FetchErr where
  | http (status : Nat) (body : Option Body)
  | attrError (msg : String)
deriving DecidableEq, Repr

end Fresto

namespace ReportScript

open Fresto

/-- Lines 59-63 of fresto_report_token.py: j = r.json() if r.content else
x7b x7d; data = j.get("data", []).  When j is a bare list, j.get does not
exist and Python raises AttributeError, so the isinstance(j, list) branch
on line 61 is unreachable. -/
def extract_data (b : Body) : Except FetchErr (List Record) :=
  match b with
  | Body.empty => Except.ok []
  | Body.obj d => Except.ok (d.getD [])
  | Body.arr _ => Except.error (FetchErr.attrError "list object has no attribute get")

/-- fresto_report_token.paged_get, lines 48-68: request pages 0,1,... of
`server`, 500 records per page, stopping at the first page with fewer than
500 records; 401 exits with a fixed message (no body), other statuses of
400 and above exit with status and body.  `fuel` bounds the loop; the
result pairs the collected records with the number of page requests
issued. -/
def paged_get (server : Nat → Response) :
    Nat → Nat → List Record → Option (Except FetchErr (List Record × Nat))
  | 0, _, _ => none
  | fuel + 1, page, out =>
    let r := server page
    if r.status == 401 then some (Except.error (FetchErr.http 401 none))
    else if 400 ≤ r.status then some (Except.error (FetchErr.http r.status (some r.body)))
    else
      match extract_data r.body with
      | Except.error e => some (Except.error e)
      | Except.ok data =>
        if data.length < 500 then some (Except.ok (out ++ data, page + 1))
        else paged_get server fuel (page + 1) (out ++ data)

end ReportScript

namespace BQScript

open Fresto

/-- Line 60 of fresto_to_bigquery.py: data = j.get("data", []) if
isinstance(j, dict) else (j or []). -/
def extract_data (b : Body) : List Record :=
  match b with
  | Body.empty => []
  | Body.obj d => d.getD []
  | Body.arr xs => xs

/-- fresto_to_bigquery.paged_get, lines 51-64: same pagination loop, but
every status of 400 and above exits with status and body, and bare-array
bodies are normalized. -/
def paged_get (server : Nat → Response) :
    Nat → Nat → List Record → Option (Except FetchErr (List Record × Nat))
  | 0, _, _ => none
  | fuel + 1, page, out =>
    let r := server page
    if 400 ≤ r.status then some (Except.error (FetchErr.http r.status (some r.body)))
    else
      let data := extract_data r.body
      if data.length < 500 then some (Except.ok (out ++ data, page + 1))
      else paged_get server fuel (page + 1) (out ++ data)

end BQScript

namespace Fresto

/-- The page-i slice of a collection of R records served 500 at a time. -/
def pageOf (records : List Record) (i : Nat) : List Record :=
  (records.drop (i * 500)).take 500

/-- A well-behaved endpoint holding `records`: every page request succeeds
with status 200 and an object body whose data field is the page slice. -/
def serverOf (records : List Record) : Nat → Response :=
  fun i => Response.mk 200 (Body.obj (some (pageOf records i)))

/-- Drop every field named `k` from a record (the right-hand join key of a
merge on a shared column name appears only once in the output). -/
def dropCol (r : Record) (k : String) : Record :=
  r.filter (fun kv => decide (kv.1 ≠ k))

/-- pandas.DataFrame.rename(columns=m): a column name is replaced by its
image under the mapping when present, otherwise kept. -/
def renameBy (m : List (String × String)) (s : String) : String :=
  ((m.find? (fun p => p.1 == s)).map Prod.snd).getD s

/-- Rename the columns of a collection by a mapping. -/
def renameCols (rows : List Record) (m : List (String × String)) : List Record :=
  rows.map (fun r => r.map (fun kv => (renameBy m kv.1, kv.2)))

/-- Rename one column. -/
def renameCol (rows : List Record) (old new : String) : List Record :=
  renameCols rows [(old, new)]

/-- DataFrame.merge(right, on=key, how="left"): every driving row is kept;
it is replicated once per matching right row (fields of the match minus the
shared key appended), and once with all non-key right columns null when
nothing matches.  The model assumes non-key column names of the two sides
are distinct, which holds after the explicit per-source renames. -/
def mergeOn (left right : List Record) (key : String) : List Record :=
  left.flatMap (fun d =>
    let ms := right.filter (fun m => decide (getField m key = getField d key))
    if ms.isEmpty then
      [d ++ ((cols right).filter (fun c => decide (c ≠ key))).map (fun c => (c, Value.null))]
    else ms.map (fun m => d ++ dropCol m key))

/-- DataFrame.merge(right, left_on=lk, right_on=rk, how="left"): as
`mergeOn`, but both key columns are kept in the output. -/
def leftJoin (driving lookup : List Record) (lk rk : String) : List Record :=
  driving.flatMap (fun d =>
    let ms := lookup.filter (fun m => decide (getField m rk = getField d lk))
    if ms.isEmpty then [d ++ (cols lookup).map (fun c => (c, Value.null))]
    else ms.map (fun m => d ++ m))

/-- Column projection df[cs] (the source guards only part of the selected
columns; a missing one is modelled as a null column). -/
def selectCols (rows : List Record) (cs : List String) : List Record :=
  rows.map (fun r => cs.map (fun c => (c, (getField r c).getD Value.null)))

/-- Column assignment df[k] = v: replaces the column when it exists,
otherwise appends it, in every row. -/
def setCol (rows : List Record) (k : String) (v : Value) : List Record :=
  if k ∈ cols rows then
    rows.map (fun r => r.map (fun kv => if kv.1 == k then (k, v) else kv))
  else rows.map (fun r => r ++ [(k, v)])

/-- The token endpoint response: status, the raw text used in error
messages, and the access_token field of the parsed JSON body (none when
absent). -/
structure TokenResponse where
  status : Nat
  bodyText : String
  accessToken : Option String
deriving DecidableEq, Repr

/-- How token acquisition fails: a SystemExit with the token-error message
(status and body), a SystemExit for a missing or falsy access_token, or an
uncaught KeyError. -/
inductive TokenErr where
  | exitTokenError (status : Nat) (body : String)
  | exitMissingToken
  | keyError (key : String)
deriving DecidableEq, Repr

/-- Modelled from the spec: an AuthError in the sense of section 7 is a
deliberate auth-failure diagnostic (the scripts raise it as SystemExit with
a message); an incidental uncaught exception such as a KeyError is not one.
Used to compare the code's failure modes with the claimed taxonomy. -/
def isAuthErrorSpec : TokenErr → Bool
  | TokenErr.keyError _ => false
  | _ => true

/-- An observable effect of a pipeline run: one endpoint fully fetched, or
one table/sheet written to the sink. -/
inductive Event where
  | fetched (path : String) (n : Nat)
  | wrote (table : String) (n : Nat)
deriving DecidableEq, Repr

/-- Is the event a sink write? -/
def isWrite : Event → Bool
  | Event.wrote _ _ => true
  | _ => false

/-- A run-level failure: token acquisition failed, or a fetch failed. -/
inductive RunErr where
  | auth (e : TokenErr)
  | fetch (e : FetchErr)
deriving DecidableEq, Repr

end Fresto

namespace ReportScript

open Fresto

/-- fresto_report_token.get_access_token, lines 30-43: exit with status and
body text on status 400 and above; exit when access_token is missing or
falsy (None or the empty string); return the token otherwise. -/
def get_access_token (r : TokenResponse) : Except TokenErr String :=
  if 400 ≤ r.status then Except.error (TokenErr.exitTokenError r.status r.bodyText)
  else
    match r.accessToken with
    | none => Except.error TokenErr.exitMissingToken
    | some tok =>
      if tok == "" then Except.error TokenErr.exitMissingToken else Except.ok tok

/-- Lines 113-120: friendly staff column names (applied only to a
non-empty frame). -/
def staffRenameMap : List (String × String) :=
  [("uid", "staff_uid"), ("name", "staff_name"), ("email", "staff_email"),
   ("posName", "staff_pos_name"), ("role", "staff_role")]

/-- Lines 113-120 of fresto_report_token.py. -/
def friendly_staff (df : List Record) : List Record :=
  if dfEmpty df then df else renameCols df staffRenameMap

/-- Lines 121-122 of fresto_report_token.py. -/
def friendly_products (df : List Record) : List Record :=
  if dfEmpty df then df else renameCols df [("id", "productID"), ("title", "productTitle")]

/-- Lines 123-124 of fresto_report_token.py. -/
def friendly_salepoints (df : List Record) : List Record :=
  if dfEmpty df then df else renameCols df [("title", "salePointTitle")]

/-- Lines 126-134 of fresto_report_token.py: start from the orderlines
frame, rename its price column to price_line, rename the orders price
column to price_order, and left-merge the orders onto the orderlines by
orderID. -/
def merge_orders (df_ol df_orders : List Record) : List Record :=
  let report := if "price" ∈ cols df_ol then renameCol df_ol "price" "price_line" else df_ol
  if dfEmpty df_orders = false ∧ "orderID" ∈ cols report ∧ "orderID" ∈ cols df_orders then
    let df_orders2 :=
      if "price" ∈ cols df_orders then renameCol df_orders "price" "price_order" else df_orders
    mergeOn report df_orders2 "orderID"
  else report

/-- Lines 126-144 of fresto_report_token.py: the four sequential left
joins building the FinalReport table from the (already renamed) frames. -/
def build_report_joins (df_orders df_ol df_staff df_prod df_sp : List Record) : List Record :=
  let report := merge_orders df_ol df_orders
  let report :=
    if dfEmpty df_staff = false ∧ "userID" ∈ cols report ∧ "staff_uid" ∈ cols df_staff then
      leftJoin report df_staff "userID" "staff_uid"
    else report
  let report :=
    if dfEmpty df_prod = false ∧ "productID" ∈ cols report ∧ "productID" ∈ cols df_prod then
      mergeOn report df_prod "productID"
    else report
  if dfEmpty df_sp = false ∧ "salePointID" ∈ cols report ∧ "salePointID" ∈ cols df_sp then
    mergeOn report (dedupFirst (selectCols df_sp ["salePointID", "salePointTitle"])) "salePointID"
  else report

/-- fresto_report_token.build_report, lines 91-154: acquire a token, fetch
the five endpoints in order, build the report, then write the workbook
(FinalReport always, one raw sheet per non-empty frame).  The result pairs
the trace of observable effects with the outcome; none means the fuel
bound on a pagination loop was hit. -/
def build_report (tokenResp : TokenResponse) (servers : String → Nat → Response)
    (fuel : Nat) : Option (List Event × Except RunErr Unit) :=
  match get_access_token tokenResp with
  | Except.error e => some ([], Except.error (RunErr.auth e))
  | Except.ok _ =>
  match paged_get (servers "/sales/orders") fuel 0 [] with
  | none => none
  | some (Except.error e) => some ([], Except.error (RunErr.fetch e))
  | some (Except.ok (orders, _)) =>
  match paged_get (servers "/sales/orderlines") fuel 0 [] with
  | none => none
  | some (Except.error e) =>
    some ([Event.fetched "/sales/orders" orders.length], Except.error (RunErr.fetch e))
  | some (Except.ok (orderlines, _)) =>
  match paged_get (servers "/staff") fuel 0 [] with
  | none => none
  | some (Except.error e) =>
    some ([Event.fetched "/sales/orders" orders.length,
           Event.fetched "/sales/orderlines" orderlines.length], Except.error (RunErr.fetch e))
  | some (Except.ok (staff, _)) =>
  match paged_get (servers "/menu/products") fuel 0 [] with
  | none => none
  | some (Except.error e) =>
    some ([Event.fetched "/sales/orders" orders.length,
           Event.fetched "/sales/orderlines" orderlines.length,
           Event.fetched "/staff" staff.length], Except.error (RunErr.fetch e))
  | some (Except.ok (products, _)) =>
  match paged_get (servers "/salepoints") fuel 0 [] with
  | none => none
  | some (Except.error e) =>
    some ([Event.fetched "/sales/orders" orders.length,
           Event.fetched "/sales/orderlines" orderlines.length,
           Event.fetched "/staff" staff.length,
           Event.fetched "/menu/products" products.length], Except.error (RunErr.fetch e))
  | some (Except.ok (salepoints, _)) =>
    let df_orders := toDF orders
    let df_ol := toDF orderlines
    let df_staff := friendly_staff (toDF staff)
    let df_prod := friendly_products (toDF products)
    let df_sp := friendly_salepoints (toDF salepoints)
    let report := build_report_joins df_orders df_ol df_staff df_prod df_sp
    some ([Event.fetched "/sales/orders" orders.length,
           Event.fetched "/sales/orderlines" orderlines.length,
           Event.fetched "/staff" staff.length,
           Event.fetched "/menu/products" products.length,
           Event.fetched "/salepoints" salepoints.length]
      ++ ([Event.wrote "FinalReport" report.length]
        ++ (if dfEmpty df_orders then [] else [Event.wrote "Orders" df_orders.length])
        ++ (if dfEmpty df_ol then [] else [Event.wrote "Orderlines" df_ol.length])
        ++ (if dfEmpty df_staff then [] else [Event.wrote "Staff" df_staff.length])
        ++ (if dfEmpty df_prod then [] else [Event.wrote "Products" df_prod.length])
        ++ (if dfEmpty df_sp then [] else [Event.wrote "SalePoints" df_sp.length])),
      Except.ok ())

end ReportScript

namespace BQScript

open Fresto

/-- fresto_to_bigquery.get_token, lines 35-47: exit with status and body on
status 400 and above; otherwise index the parsed body at access_token, so a
missing field raises an uncaught KeyError. -/
def get_token (r : TokenResponse) : Except TokenErr String :=
  if 400 ≤ r.status then Except.error (TokenErr.exitTokenError r.status r.bodyText)
  else
    match r.accessToken with
    | none => Except.error (TokenErr.keyError "access_token")
    | some tok => Except.ok tok

/-- Lines 118-123 of fresto_to_bigquery.py: convert the fetched collection
to a frame and, when non-empty, assign the location_slug and loaded_at
columns (a single timestamp broadcast to all rows). -/
def enrich (slug ts : Value) (data : List Record) : List Record :=
  let df := toDF data
  if dfEmpty df then df
  else setCol (setCol df "location_slug" slug) "loaded_at" ts

/-- fresto_to_bigquery.load_df, lines 68-78: skip the write entirely when
the frame is empty, otherwise append its rows to the destination table. -/
def load_df (df : List Record) (table_id : String) : List Event :=
  if dfEmpty df then [] else [Event.wrote table_id df.length]

/-- The load phase, lines 132-136 generalized: one load_df call per
(frame, destination) pair, in order. -/
def loadAll (dfs : List (List Record × String)) : List Event :=
  dfs.flatMap (fun p => load_df p.1 p.2)

/-- fresto_to_bigquery.main, lines 105-136: acquire a token, fetch the five
endpoints in order, enrich each collection, then load each frame.  The
result pairs the trace of observable effects with the outcome; none means
the fuel bound on a pagination loop was hit. -/
def main (tokenResp : TokenResponse) (servers : String → Nat → Response)
    (slug ts : Value) (base : String) (fuel : Nat) :
    Option (List Event × Except RunErr Unit) :=
  match get_token tokenResp with
  | Except.error e => some ([], Except.error (RunErr.auth e))
  | Except.ok _ =>
  match paged_get (servers "/sales/orders") fuel 0 [] with
  | none => none
  | some (Except.error e) => some ([], Except.error (RunErr.fetch e))
  | some (Except.ok (orders, _)) =>
  match paged_get (servers "/sales/orderlines") fuel 0 [] with
  | none => none
  | some (Except.error e) =>
    some ([Event.fetched "/sales/orders" orders.length], Except.error (RunErr.fetch e))
  | some (Except.ok (orderlines, _)) =>
  match paged_get (servers "/staff") fuel 0 [] with
  | none => none
  | some (Except.error e) =>
    some ([Event.fetched "/sales/orders" orders.length,
           Event.fetched "/sales/orderlines" orderlines.length], Except.error (RunErr.fetch e))
  | some (Except.ok (staff, _)) =>
  match paged_get (servers "/menu/products") fuel 0 [] with
  | none => none
  | some (Except.error e) =>
    some ([Event.fetched "/sales/orders" orders.length,
           Event.fetched "/sales/orderlines" orderlines.length,
           Event.fetched "/staff" staff.length], Except.error (RunErr.fetch e))
  | some (Except.ok (products, _)) =>
  match paged_get (servers "/salepoints") fuel 0 [] with
  | none => none
  | some (Except.error e) =>
    some ([Event.fetched "/sales/orders" orders.length,
           Event.fetched "/sales/orderlines" orderlines.length,
           Event.fetched "/staff" staff.length,
           Event.fetched "/menu/products" products.length], Except.error (RunErr.fetch e))
  | some (Except.ok (salepoints, _)) =>
    some ([Event.fetched "/sales/orders" orders.length,
           Event.fetched "/sales/orderlines" orderlines.length,
           Event.fetched "/staff" staff.length,
           Event.fetched "/menu/products" products.length,
           Event.fetched "/salepoints" salepoints.length]
      ++ (load_df (enrich slug ts orders) (base ++ ".raw_orders")
        ++ load_df (enrich slug ts orderlines) (base ++ ".raw_orderlines")
        ++ load_df (enrich slug ts staff) (base ++ ".dim_staff")
        ++ load_df (enrich slug ts products) (base ++ ".dim_products")
        ++ load_df (enrich slug ts salepoints) (base ++ ".dim_salepoints")),
      Except.ok ())

end BQScript

section Theorems

open Fresto

/-! Shared helper lemmas. -/

theorem mem_dedupFirstAux {α : Type} [DecidableEq α] (l : List α) :
    ∀ (seen : List α) (x : α), x ∈ dedupFirstAux seen l ↔ x ∈ l ∧ x ∉ seen := by
  induction l with
  | nil =>
    intro seen x
    simp [dedupFirstAux]
  | cons a l ih =>
    intro seen x
    rw [dedupFirstAux]
    by_cases ha : a ∈ seen
    · rw [if_pos ha, ih]
      constructor
      · rintro ⟨h1, h2⟩
        exact ⟨List.mem_cons.mpr (Or.inr h1), h2⟩
      · rintro ⟨h1, h2⟩
        rcases List.mem_cons.mp h1 with rfl | h1
        · exact absurd ha h2
        · exact ⟨h1, h2⟩
    · rw [if_neg ha]
      constructor
      · intro hx
        rcases List.mem_cons.mp hx with rfl | hx
        · exact ⟨List.mem_cons.mpr (Or.inl rfl), ha⟩
        · have h := (ih (a :: seen) x).mp hx
          exact ⟨List.mem_cons.mpr (Or.inr h.1),
            fun hs => h.2 (List.mem_cons.mpr (Or.inr hs))⟩
      · rintro ⟨h1, h2⟩
        rcases List.mem_cons.mp h1 with rfl | h1
        · exact List.mem_cons.mpr (Or.inl rfl)
        · by_cases hxa : x = a
          · subst hxa
            exact List.mem_cons.mpr (Or.inl rfl)
          · refine List.mem_cons.mpr (Or.inr ((ih (a :: seen) x).mpr ⟨h1, fun hs => ?_⟩))
            rcases List.mem_cons.mp hs with h | h
            · exact hxa h
            · exact h2 h

theorem mem_dedupFirst {α : Type} [DecidableEq α] (l : List α) (x : α) :
    x ∈ dedupFirst l ↔ x ∈ l := by
  rw [dedupFirst, mem_dedupFirstAux]
  simp

theorem mem_cols (rows : List Record) (x : String) :
    x ∈ cols rows ↔ ∃ r ∈ rows, x ∈ r.map Prod.fst := by
  rw [cols, mem_dedupFirst, List.mem_flatMap]

theorem length_pageOf (records : List Record) (page : Nat) :
    (pageOf records page).length = min 500 (records.length - page * 500) := by
  simp [pageOf]

/-- One full page plus the remaining slices reassemble the tail. -/
theorem pageOf_append_drop (records : List Record) (page : Nat) :
    pageOf records page ++ records.drop ((page + 1) * 500) =
      records.drop (page * 500) := by
  have h2 : (page + 1) * 500 = page * 500 + 500 := by ring
  have h1 : records.drop ((page + 1) * 500) = (records.drop (page * 500)).drop 500 := by
    rw [List.drop_drop, h2]
  rw [pageOf, h1, List.take_append_drop]

theorem bq_paged_get_serverOf (records : List Record) :
    ∀ (fuel page : Nat) (out : List Record),
      (records.length - page * 500) / 500 + 1 ≤ fuel →
      BQScript.paged_get (serverOf records) fuel page out =
        some (Except.ok (out ++ records.drop (page * 500),
          page + ((records.length - page * 500) / 500 + 1))) := by
  intro fuel
  induction fuel with
  | zero => intro page out h; omega
  | succ n ih =>
    intro page out h
    rw [BQScript.paged_get]
    simp only [serverOf, BQScript.extract_data, Option.getD_some]
    rw [if_neg (show ¬ ((400 : Nat) ≤ 200) by decide)]
    by_cases hrem : records.length - page * 500 < 500
    · rw [if_pos (by rw [length_pageOf]; omega)]
      have hshort : (records.drop (page * 500)).length ≤ 500 := by
        rw [List.length_drop]; omega
      have hq : (records.length - page * 500) / 500 = 0 := Nat.div_eq_of_lt hrem
      rw [pageOf, List.take_of_length_le hshort, hq]
    · rw [if_neg (by rw [length_pageOf]; omega)]
      rw [ih (page + 1) (out ++ pageOf records page) (by omega)]
      rw [List.append_assoc, pageOf_append_drop]
      have hc : page + 1 + ((records.length - (page + 1) * 500) / 500 + 1)
          = page + ((records.length - page * 500) / 500 + 1) := by omega
      rw [hc]

theorem report_paged_get_serverOf_eq (records : List Record) :
    ∀ (fuel page : Nat) (out : List Record),
      ReportScript.paged_get (serverOf records) fuel page out =
      BQScript.paged_get (serverOf records) fuel page out := by
  intro fuel
  induction fuel with
  | zero => intro page out; rfl
  | succ n ih =>
    intro page out
    rw [ReportScript.paged_get, BQScript.paged_get]
    simp only [serverOf, ReportScript.extract_data, BQScript.extract_data, Option.getD_some]
    rw [if_neg (show ¬ (((200 : Nat) == 401) = true) by decide)]
    rw [if_neg (show ¬ ((400 : Nat) ≤ 200) by decide)]
    rw [if_neg (show ¬ ((400 : Nat) ≤ 200) by decide)]
    by_cases hlen : (pageOf records page).length < 500
    · rw [if_pos hlen, if_pos hlen]
    · rw [if_neg hlen, if_neg hlen, ih]

/-- Claim C1: fetching R records served in 500-record pages issues
ceil(R/500) page requests when R is not a multiple of 500 and R/500 + 1
requests when it is (one extra request confirms termination after a full
page), stops at the first short page, and returns all R records — in both
scripts' paged_get. -/
theorem c1_paged_get_request_count (records : List Record) (fuel : Nat)
    (hfuel : records.length / 500 + 1 ≤ fuel) :
    BQScript.paged_get (serverOf records) fuel 0 [] =
      some (Except.ok (records,
        if records.length % 500 = 0 then records.length / 500 + 1
        else (records.length + 499) / 500)) ∧
    ReportScript.paged_get (serverOf records) fuel 0 [] =
      some (Except.ok (records,
        if records.length % 500 = 0 then records.length / 500 + 1
        else (records.length + 499) / 500)) := by
  have hcount : (if records.length % 500 = 0 then records.length / 500 + 1
      else (records.length + 499) / 500) = records.length / 500 + 1 := by
    by_cases h : records.length % 500 = 0
    · rw [if_pos h]
    · rw [if_neg h]; omega
  have hb := bq_paged_get_serverOf records fuel 0 [] (by simpa using hfuel)
  simp only [Nat.zero_mul, Nat.sub_zero, List.drop_zero, List.nil_append, Nat.zero_add] at hb
  rw [hcount]
  exact ⟨hb, by rw [report_paged_get_serverOf_eq]; exact hb⟩

/-- Concrete check of C1: one record is returned by a single page request. -/
theorem c1_paged_get_request_count_witness :
    (([[("a", Value.num 1)]] : List Record).length / 500 + 1 ≤ 1) ∧
    (BQScript.paged_get (serverOf [[("a", Value.num 1)]]) 1 0 [] =
      some (Except.ok ([[("a", Value.num 1)]],
        if ([[("a", Value.num 1)]] : List Record).length % 500 = 0
        then ([[("a", Value.num 1)]] : List Record).length / 500 + 1
        else (([[("a", Value.num 1)]] : List Record).length + 499) / 500)) ∧
     ReportScript.paged_get (serverOf [[("a", Value.num 1)]]) 1 0 [] =
      some (Except.ok ([[("a", Value.num 1)]],
        if ([[("a", Value.num 1)]] : List Record).length % 500 = 0
        then ([[("a", Value.num 1)]] : List Record).length / 500 + 1
        else (([[("a", Value.num 1)]] : List Record).length + 499) / 500))) :=
  ⟨by decide, c1_paged_get_request_count [[("a", Value.num 1)]] 1 (by decide)⟩

/-! Error propagation of the pagination loops. -/

theorem bq_paged_get_http_error_aux (server : Nat → Fresto.Response) (k : Nat)
    (hgood : ∀ i, i < k → (server i).status < 400 ∧
      (BQScript.extract_data (server i).body).length = 500)
    (hbad : 400 ≤ (server k).status) :
    ∀ (n fuel page : Nat) (out : List Record), page + n = k → n < fuel →
      BQScript.paged_get server fuel page out =
        some (Except.error (FetchErr.http (server k).status (some (server k).body))) := by
  intro n
  induction n with
  | zero =>
    intro fuel page out hpage hfuel
    have hpk : page = k := by omega
    subst hpk
    obtain ⟨m, rfl⟩ : ∃ m, fuel = m + 1 := ⟨fuel - 1, by omega⟩
    rw [BQScript.paged_get, if_pos hbad]
  | succ n ih =>
    intro fuel page out hpage hfuel
    obtain ⟨m, rfl⟩ : ∃ m, fuel = m + 1 := ⟨fuel - 1, by omega⟩
    have h1 := (hgood page (by omega)).1
    have h2 := (hgood page (by omega)).2
    rw [BQScript.paged_get]
    rw [if_neg (by omega)]
    rw [if_neg (by rw [h2]; omega)]
    exact ih m (page + 1) (out ++ BQScript.extract_data (server page).body) (by omega) (by omega)

theorem report_paged_get_http_error_aux (server : Nat → Fresto.Response) (k : Nat)
    (hgood : ∀ i, i < k → (server i).status < 400 ∧
      ReportScript.extract_data (server i).body =
        Except.ok (BQScript.extract_data (server i).body) ∧
      (BQScript.extract_data (server i).body).length = 500)
    (hbad : 400 ≤ (server k).status) :
    ∀ (n fuel page : Nat) (out : List Record), page + n = k → n < fuel →
      ReportScript.paged_get server fuel page out =
        some (Except.error (if (server k).status = 401 then FetchErr.http 401 none
          else FetchErr.http (server k).status (some (server k).body))) := by
  intro n
  induction n with
  | zero =>
    intro fuel page out hpage hfuel
    have hpk : page = k := by omega
    subst hpk
    obtain ⟨m, rfl⟩ : ∃ m, fuel = m + 1 := ⟨fuel - 1, by omega⟩
    rw [ReportScript.paged_get]
    by_cases h401 : (server page).status = 401
    · rw [if_pos (by rw [beq_iff_eq]; exact h401), if_pos h401]
    · rw [if_neg (by rw [beq_iff_eq]; exact h401), if_pos hbad, if_neg h401]
  | succ n ih =>
    intro fuel page out hpage hfuel
    obtain ⟨m, rfl⟩ : ∃ m, fuel = m + 1 := ⟨fuel - 1, by omega⟩
    have h1 := (hgood page (by omega)).1
    have h2 := (hgood page (by omega)).2.1
    have h3 := (hgood page (by omega)).2.2
    rw [ReportScript.paged_get]
    rw [if_neg (by rw [beq_iff_eq]; omega)]
    rw [if_neg (by omega)]
    simp only [h2]
    rw [if_neg (by rw [h3]; omega)]
    exact ih m (page + 1) (out ++ BQScript.extract_data (server page).body) (by omega) (by omega)

/-- Claim C4 counterexample: in the report script a 401 page response makes
paged_get exit with a fixed message that does not carry the response body,
so the error is not the status-plus-body error the claim promises. -/
theorem c4_counterexample :
    ReportScript.paged_get
        (fun _ => Response.mk 401 (Body.obj (some [[("a", Value.num 1)]]))) 1 0 [] =
      some (Except.error (FetchErr.http 401 none)) ∧
    FetchErr.http 401 none ≠
      FetchErr.http 401 (some (Body.obj (some [[("a", Value.num 1)]]))) :=
  ⟨rfl, by decide⟩

/-- Claim C4 (amended): whenever the page at index k is the first to return
a status of 400 or above, both paged_get variants fail immediately with an
error carrying the status — and the response body, except in the report
script's 401 case whose message omits the body — and no partial collection
is returned. -/
theorem c4_paged_get_http_error (server : Nat → Fresto.Response) (k fuel : Nat)
    (hgood : ∀ i, i < k → (server i).status < 400 ∧
      ReportScript.extract_data (server i).body =
        Except.ok (BQScript.extract_data (server i).body) ∧
      (BQScript.extract_data (server i).body).length = 500)
    (hbad : 400 ≤ (server k).status) (hfuel : k < fuel) :
    BQScript.paged_get server fuel 0 [] =
      some (Except.error (FetchErr.http (server k).status (some (server k).body))) ∧
    ReportScript.paged_get server fuel 0 [] =
      some (Except.error (if (server k).status = 401 then FetchErr.http 401 none
        else FetchErr.http (server k).status (some (server k).body))) :=
  ⟨bq_paged_get_http_error_aux server k
      (fun i hi => ⟨(hgood i hi).1, (hgood i hi).2.2⟩) hbad k fuel 0 [] (by omega) hfuel,
   report_paged_get_http_error_aux server k hgood hbad k fuel 0 [] (by omega) hfuel⟩

/-- Concrete check of C4 (amended): a 500 status on page 0 makes both
variants fail with the status and body and return no records. -/
theorem c4_paged_get_http_error_witness :
    (400 ≤ (500 : Nat)) ∧
    (BQScript.paged_get (fun _ => Response.mk 500 (Body.obj none)) 1 0 [] =
      some (Except.error (FetchErr.http 500 (some (Body.obj none)))) ∧
     ReportScript.paged_get (fun _ => Response.mk 500 (Body.obj none)) 1 0 [] =
      some (Except.error (if (500 : Nat) = 401 then FetchErr.http 401 none
        else FetchErr.http 500 (some (Body.obj none))))) :=
  ⟨by decide,
   c4_paged_get_http_error (fun _ => Response.mk 500 (Body.obj none)) 0 1
     (fun i hi => absurd hi (Nat.not_lt_zero i)) (by decide) (by decide)⟩

/-- Claim C3: the report script's paged_get crashes on a bare-array page
body (j.get on a list raises AttributeError, making the isinstance branch
on line 61 dead code), while the BigQuery script's paged_get normalizes the
bare array and the object form to the same record sequence. -/
theorem c3_bare_array_divergence :
    ReportScript.extract_data (Body.arr [[("a", Value.num 1)]]) =
      Except.error (FetchErr.attrError "list object has no attribute get") ∧
    BQScript.extract_data (Body.arr [[("a", Value.num 1)]]) = [[("a", Value.num 1)]] ∧
    ReportScript.extract_data (Body.obj (some [[("a", Value.num 1)]])) =
      Except.ok [[("a", Value.num 1)]] ∧
    BQScript.extract_data (Body.obj (some [[("a", Value.num 1)]])) = [[("a", Value.num 1)]] ∧
    ReportScript.paged_get (fun _ => Response.mk 200 (Body.arr [[("a", Value.num 1)]])) 1 0 [] =
      some (Except.error (FetchErr.attrError "list object has no attribute get")) ∧
    BQScript.paged_get (fun _ => Response.mk 200 (Body.arr [[("a", Value.num 1)]])) 1 0 [] =
      some (Except.ok ([[("a", Value.num 1)]], 1)) :=
  ⟨rfl, rfl, rfl, rfl, rfl, rfl⟩

/-- Claim C6 counterexample: a success token response lacking access_token
makes the BigQuery script's get_token fail with an uncaught KeyError, not
with an AuthError-style diagnostic; and on a success response whose
access_token is present but empty the report script fails instead of
returning the token string, while the BigQuery script returns the empty
string. -/
theorem c6_counterexample :
    BQScript.get_token (TokenResponse.mk 200 "ok" none) =
      Except.error (TokenErr.keyError "access_token") ∧
    isAuthErrorSpec (TokenErr.keyError "access_token") = false ∧
    ReportScript.get_access_token (TokenResponse.mk 200 "ok" (some "")) =
      Except.error TokenErr.exitMissingToken ∧
    BQScript.get_token (TokenResponse.mk 200 "ok" (some "")) = Except.ok "" :=
  ⟨rfl, rfl, rfl, rfl⟩

/-- Claim C6 (amended): on any status of 400 and above both token functions
fail with the status and body; on a success response lacking access_token
the report script fails with its AuthError-style SystemExit while the
BigQuery script raises an uncaught KeyError; on a success response carrying
an empty access_token the report script likewise fails with the SystemExit
while the BigQuery script returns the empty string; on a success response
carrying a non-empty access_token both scripts return it; and every failure
of the report script's get_access_token is an AuthError-style diagnostic. -/
theorem c6_token_acquisition (r : Fresto.TokenResponse) :
    (400 ≤ r.status →
      ReportScript.get_access_token r =
        Except.error (TokenErr.exitTokenError r.status r.bodyText) ∧
      BQScript.get_token r = Except.error (TokenErr.exitTokenError r.status r.bodyText)) ∧
    (r.status < 400 → r.accessToken = none →
      ReportScript.get_access_token r = Except.error TokenErr.exitMissingToken ∧
      BQScript.get_token r = Except.error (TokenErr.keyError "access_token")) ∧
    (r.status < 400 → r.accessToken = some "" →
      ReportScript.get_access_token r = Except.error TokenErr.exitMissingToken ∧
      BQScript.get_token r = Except.ok "") ∧
    (∀ tok, r.status < 400 → r.accessToken = some tok → tok ≠ "" →
      ReportScript.get_access_token r = Except.ok tok ∧
      BQScript.get_token r = Except.ok tok) ∧
    (∀ e, ReportScript.get_access_token r = Except.error e → isAuthErrorSpec e = true) := by
  refine ⟨?_, ?_, ?_, ?_, ?_⟩
  · intro h
    rw [ReportScript.get_access_token, if_pos h, BQScript.get_token, if_pos h]
    exact ⟨rfl, rfl⟩
  · intro h1 h2
    constructor
    · rw [ReportScript.get_access_token, if_neg (by omega), h2]
    · rw [BQScript.get_token, if_neg (by omega), h2]
  · intro h1 h2
    constructor
    · rw [ReportScript.get_access_token, if_neg (by omega), h2]
      rfl
    · rw [BQScript.get_token, if_neg (by omega), h2]
  · intro tok h1 h2 h3
    constructor
    · rw [ReportScript.get_access_token, if_neg (by omega), h2]
      show (if (tok == "") = true then Except.error TokenErr.exitMissingToken
        else Except.ok tok) = Except.ok tok
      rw [if_neg (by rw [beq_iff_eq]; exact h3)]
    · rw [BQScript.get_token, if_neg (by omega), h2]
  · intro e he
    rw [ReportScript.get_access_token] at he
    by_cases h4 : 400 ≤ r.status
    · rw [if_pos h4] at he
      injection he with h
      rw [← h]
      rfl
    · rw [if_neg h4] at he
      cases hat : r.accessToken with
      | none =>
        rw [hat] at he
        injection he with h
        rw [← h]
        rfl
      | some tok =>
        rw [hat] at he
        have he2 : (if (tok == "") = true then Except.error TokenErr.exitMissingToken
            else Except.ok tok) = Except.error e := he
        by_cases h5 : (tok == "") = true
        · rw [if_pos h5] at he2
          injection he2 with h
          rw [← h]
          rfl
        · rw [if_neg h5] at he2
          exact absurd he2 (by simp)

/-- Concrete check of C6 (amended): a 500 token response fails both scripts
with the status and body. -/
theorem c6_token_acquisition_witness :
    (400 ≤ (500 : Nat)) ∧
    (ReportScript.get_access_token (TokenResponse.mk 500 "boom" none) =
      Except.error (TokenErr.exitTokenError 500 "boom") ∧
     BQScript.get_token (TokenResponse.mk 500 "boom" none) =
      Except.error (TokenErr.exitTokenError 500 "boom")) :=
  ⟨by decide, (c6_token_acquisition (TokenResponse.mk 500 "boom" none)).1 (by decide)⟩

/-! Left-join lemmas. -/

theorem filter_key_length_le_one (lookup : List Record) (rk : String) (v : Option Value)
    (hnodup : (lookup.map (fun m => getField m rk)).Nodup) :
    (lookup.filter (fun m => decide (getField m rk = v))).length ≤ 1 := by
  induction lookup with
  | nil => simp
  | cons a l ih =>
    rw [List.map_cons, List.nodup_cons] at hnodup
    rw [List.filter_cons]
    by_cases ha : getField a rk = v
    · rw [if_pos (decide_eq_true ha)]
      have hnil : l.filter (fun m => decide (getField m rk = v)) = [] := by
        rw [List.filter_eq_nil_iff]
        intro m hm
        simp only [decide_eq_true_eq]
        intro hv
        exact hnodup.1 (List.mem_map.mpr ⟨m, hm, by rw [hv, ha]⟩)
      rw [hnil]
      simp
    · rw [if_neg (by simp only [decide_eq_true_eq]; exact ha)]
      exact ih hnodup.2

/-- Claim C2: when the lookup collection is pre-deduplicated on the join
key (its key values are pairwise distinct), leftJoin keeps exactly one
output row per driving row — matched rows get the lookup fields appended,
unmatched rows get all lookup columns null — so the output row count always
equals the driving row count. -/
theorem c2_leftJoin_row_count (driving lookup : List Record) (lk rk : String)
    (hnodup : (lookup.map (fun m => getField m rk)).Nodup) :
    (leftJoin driving lookup lk rk).length = driving.length ∧
    leftJoin driving lookup lk rk = driving.map (fun d =>
      match lookup.filter (fun m => decide (getField m rk = getField d lk)) with
      | [] => d ++ (cols lookup).map (fun c => (c, Value.null))
      | m :: _ => d ++ m) := by
  have hone : ∀ v, (lookup.filter (fun m => decide (getField m rk = v))).length ≤ 1 :=
    fun v => filter_key_length_le_one lookup rk v hnodup
  have hhead : ∀ d : Record,
      (let ms := lookup.filter (fun m => decide (getField m rk = getField d lk))
       if ms.isEmpty then [d ++ (cols lookup).map (fun c => (c, Value.null))]
       else ms.map (fun m => d ++ m)) =
      [match lookup.filter (fun m => decide (getField m rk = getField d lk)) with
       | [] => d ++ (cols lookup).map (fun c => (c, Value.null))
       | m :: _ => d ++ m] := by
    intro d
    rcases hcase : lookup.filter (fun m => decide (getField m rk = getField d lk)) with
      _ | ⟨m, rest⟩
    · simp [hcase]
    · have hlen := hone (getField d lk)
      rw [hcase] at hlen
      have hrest : rest = [] := by simpa using hlen
      subst hrest
      simp [hcase]
  have heq : leftJoin driving lookup lk rk = driving.map (fun d =>
      match lookup.filter (fun m => decide (getField m rk = getField d lk)) with
      | [] => d ++ (cols lookup).map (fun c => (c, Value.null))
      | m :: _ => d ++ m) := by
    rw [leftJoin]
    induction driving with
    | nil => rfl
    | cons d ds ih =>
      rw [List.flatMap_cons, List.map_cons, hhead d, List.singleton_append, ih]
  exact ⟨by rw [heq, List.length_map], heq⟩

/-- Concrete check of C2: two driving rows, a one-row deduplicated lookup,
one match and one miss: the join returns exactly two rows, the missed one
with null lookup columns. -/
theorem c2_leftJoin_row_count_witness :
    (([[("staff_uid", Value.str "u1"), ("staff_name", Value.str "Ana")]] : List Record).map
        (fun m => getField m "staff_uid")).Nodup ∧
    ((leftJoin [[("userID", Value.str "u1")], [("userID", Value.str "u2")]]
        [[("staff_uid", Value.str "u1"), ("staff_name", Value.str "Ana")]]
        "userID" "staff_uid").length =
      ([[("userID", Value.str "u1")], [("userID", Value.str "u2")]] : List Record).length ∧
     leftJoin [[("userID", Value.str "u1")], [("userID", Value.str "u2")]]
        [[("staff_uid", Value.str "u1"), ("staff_name", Value.str "Ana")]]
        "userID" "staff_uid" =
      ([[("userID", Value.str "u1")], [("userID", Value.str "u2")]] : List Record).map (fun d =>
        match ([[("staff_uid", Value.str "u1"), ("staff_name", Value.str "Ana")]] :
            List Record).filter
            (fun m => decide (getField m "staff_uid" = getField d "userID")) with
        | [] => d ++ (cols [[("staff_uid", Value.str "u1"),
            ("staff_name", Value.str "Ana")]]).map (fun c => (c, Value.null))
        | m :: _ => d ++ m)) :=
  ⟨by decide,
   c2_leftJoin_row_count [[("userID", Value.str "u1")], [("userID", Value.str "u2")]]
     [[("staff_uid", Value.str "u1"), ("staff_name", Value.str "Ana")]]
     "userID" "staff_uid" (by decide)⟩

/-- Claim C7 counterexample: pandas merge keeps the right join key column,
so the single output row carries staff_uid, a field the claimed output row
does not have. -/
theorem c7_counterexample :
    leftJoin [[("orderID", Value.num 1), ("userID", Value.str "u1")]]
        [[("staff_uid", Value.str "u1"), ("staff_name", Value.str "Ana")]]
        "userID" "staff_uid" ≠
      [[("orderID", Value.num 1), ("userID", Value.str "u1"),
        ("staff_name", Value.str "Ana")]] ∧
    getField ((leftJoin [[("orderID", Value.num 1), ("userID", Value.str "u1")]]
        [[("staff_uid", Value.str "u1"), ("staff_name", Value.str "Ana")]]
        "userID" "staff_uid").headD []) "staff_uid" = some (Value.str "u1") ∧
    getField [("orderID", Value.num 1), ("userID", Value.str "u1"),
        ("staff_name", Value.str "Ana")] "staff_uid" = none := by
  refine ⟨by decide, by decide, by decide⟩

/-- Claim C7 (amended): the scenario join produces exactly the single row
with orderID 1, userID u1, staff_uid u1 and staff_name Ana: staff_name is
copied onto the matching driving row and the right join key staff_uid is
kept as well. -/
theorem c7_staff_join_scenario :
    leftJoin [[("orderID", Value.num 1), ("userID", Value.str "u1")]]
        [[("staff_uid", Value.str "u1"), ("staff_name", Value.str "Ana")]]
        "userID" "staff_uid" =
      [[("orderID", Value.num 1), ("userID", Value.str "u1"),
        ("staff_uid", Value.str "u1"), ("staff_name", Value.str "Ana")]] := by
  decide

/-- Claim C10: load_df performs no write for an empty frame, and the load
phase writes exactly the non-empty frames in order, so an empty collection
skips its destination table while the remaining loads still complete. -/
theorem c10_load_df_empty_skip (t : String) (dfs : List (List Record × String)) :
    BQScript.load_df [] t = [] ∧
    BQScript.loadAll dfs =
      (dfs.filter (fun p => !dfEmpty p.1)).map (fun p => Event.wrote p.2 p.1.length) := by
  constructor
  · rfl
  · induction dfs with
    | nil => rfl
    | cons p ps ih =>
      rw [BQScript.loadAll] at ih ⊢
      rw [List.flatMap_cons, List.filter_cons, ih]
      by_cases hp : dfEmpty p.1
      · rw [if_neg (by simp [hp]), BQScript.load_df, if_pos hp, List.nil_append]
      · rw [if_pos (by simp [hp]), BQScript.load_df, if_neg hp, List.map_cons,
          List.singleton_append]

/-! Field and column lemmas. -/

theorem getField_cons (c : String) (v : Value) (r : Record) (k : String) :
    getField ((c, v) :: r) k = if c = k then some v else getField r k := by
  by_cases h : c = k
  · rw [if_pos h, getField, List.find?_cons_of_pos _ (by simpa using h)]
    rfl
  · rw [if_neg h, getField, List.find?_cons_of_neg _ (by simpa using h), getField]

theorem getField_eq_none (r : Record) (k : String) :
    getField r k = none ↔ k ∉ r.map Prod.fst := by
  induction r with
  | nil => simp [getField]
  | cons kv r ih =>
    rcases kv with ⟨c, w⟩
    rw [getField_cons, List.map_cons]
    by_cases hc : c = k
    · subst hc
      simp
    · rw [if_neg hc, ih]
      constructor
      · intro hnot hk
        rcases List.mem_cons.mp hk with h | h
        · exact hc h.symm
        · exact hnot h
      · intro hnot h
        exact hnot (List.mem_cons.mpr (Or.inr h))

theorem getField_append_left (a b : Record) (k : String) (v : Value)
    (h : getField a k = some v) : getField (a ++ b) k = some v := by
  induction a with
  | nil => rw [getField] at h; simp at h
  | cons kv r ih =>
    rcases kv with ⟨c, w⟩
    rw [getField_cons] at h
    rw [List.cons_append, getField_cons]
    by_cases hc : c = k
    · rw [if_pos hc] at h ⊢
      exact h
    · rw [if_neg hc] at h ⊢
      exact ih h

theorem getField_append_right (a b : Record) (k : String)
    (h : getField a k = none) : getField (a ++ b) k = getField b k := by
  induction a with
  | nil => rfl
  | cons kv r ih =>
    rcases kv with ⟨c, w⟩
    rw [getField_cons] at h
    rw [List.cons_append, getField_cons]
    by_cases hc : c = k
    · rw [if_pos hc] at h
      exact absurd h (by simp)
    · rw [if_neg hc] at h ⊢
      exact ih h

theorem map_fst_pairs (cs : List String) (g : String → Value) :
    (cs.map (fun c => (c, g c))).map Prod.fst = cs := by
  induction cs with
  | nil => rfl
  | cons c cs ih => simp [ih]

theorem getField_pairs (cs : List String) (g : String → Value) (k : String) :
    getField (cs.map (fun c => (c, g c))) k =
      if k ∈ cs then some (g k) else none := by
  induction cs with
  | nil => simp [getField]
  | cons c cs ih =>
    rw [List.map_cons, getField_cons, ih]
    by_cases hc : c = k
    · subst hc
      simp
    · rw [if_neg hc]
      by_cases hk : k ∈ cs
      · rw [if_pos hk, if_pos (List.mem_cons.mpr (Or.inr hk))]
      · rw [if_neg hk, if_neg (by
          intro hmem
          rcases List.mem_cons.mp hmem with h | h
          · exact hc h.symm
          · exact hk h)]

theorem mem_toDF_fields (rows : List Record) (r : Record) (hr : r ∈ toDF rows) :
    r.map Prod.fst = cols rows := by
  rw [toDF] at hr
  obtain ⟨r0, _, rfl⟩ := List.mem_map.mp hr
  exact map_fst_pairs _ _

theorem mem_cols_toDF (rows : List Record) (k : String) (h : k ∈ cols (toDF rows)) :
    k ∈ cols rows := by
  obtain ⟨r, hr, hk⟩ := (mem_cols (toDF rows) k).mp h
  rw [mem_toDF_fields rows r hr] at hk
  exact hk

theorem zip_map_self {α β : Type} (f : α → β) (l : List α) :
    ∀ p ∈ l.zip (l.map f), p.2 = f p.1 := by
  induction l with
  | nil =>
    intro p hp
    simp at hp
  | cons a l ih =>
    intro p hp
    rw [List.map_cons, List.zip_cons_cons] at hp
    rcases List.mem_cons.mp hp with h | h
    · rw [h]
    · exact ih p h

/-- Claim C9 counterexample: a fetched record that already carries a
location_slug field has that field overwritten by enrichment (the old value
is lost) and only one new field is added, so enrichment does not always add
exactly two fields while keeping every pre-existing value. -/
theorem c9_counterexample :
    BQScript.enrich (Value.str "new") (Value.str "T")
        [[("location_slug", Value.str "old"), ("a", Value.num 1)]] =
      [[("location_slug", Value.str "new"), ("a", Value.num 1),
        ("loaded_at", Value.str "T")]] ∧
    getField [("location_slug", Value.str "old"), ("a", Value.num 1)] "location_slug" =
      some (Value.str "old") ∧
    ([("location_slug", Value.str "new"), ("a", Value.num 1),
        ("loaded_at", Value.str "T")] : Record).length =
      ([("location_slug", Value.str "old"), ("a", Value.num 1)] : Record).length + 1 :=
  ⟨by decide, by decide, by decide⟩

/-- Claim C9 (amended): for every non-empty fetched collection that has at
least one column and no pre-existing location_slug or loaded_at column, the
enrichment step appends exactly those two fields to every (column
normalized) row — location_slug set to the run source tag and loaded_at to
the write timestamp — keeps every pre-existing field value and leaves the
row count unchanged; a pre-existing column of either name would instead be
overwritten. -/
theorem c9_enrich_adds_two_fields (slug ts : Value) (data : List Record)
    (hne : data ≠ []) (hcne : cols data ≠ [])
    (hls : "location_slug" ∉ cols data) (hla : "loaded_at" ∉ cols data) :
    BQScript.enrich slug ts data =
      (toDF data).map (fun r => r ++ [("location_slug", slug), ("loaded_at", ts)]) ∧
    (BQScript.enrich slug ts data).length = data.length ∧
    (BQScript.enrich slug ts data).all (fun r =>
      decide (getField r "location_slug" = some slug) &&
      decide (getField r "loaded_at" = some ts)) = true ∧
    (BQScript.enrich slug ts data).map (fun r => r.map Prod.fst) =
      data.map (fun _ => cols data ++ ["location_slug", "loaded_at"]) ∧
    (data.zip (BQScript.enrich slug ts data)).all (fun p =>
      (p.1.map Prod.fst).all (fun k => decide (getField p.2 k = getField p.1 k))) = true := by
  have htne : toDF data ≠ [] := by
    rw [toDF]
    intro h
    exact hne (List.map_eq_nil_iff.mp h)
  have hctoDF : ∀ k, k ∈ cols data → k ∈ cols (toDF data) := by
    intro k hk
    obtain ⟨d, ds, rfl⟩ := List.exists_cons_of_ne_nil hne
    apply (mem_cols _ k).mpr
    refine ⟨(cols (d :: ds)).map (fun c => (c, (getField d c).getD Value.null)), ?_, ?_⟩
    · exact List.mem_map.mpr ⟨d, List.mem_cons_self d ds, rfl⟩
    · rw [map_fst_pairs]
      exact hk
  have hdfe : dfEmpty (toDF data) = false := by
    rw [dfEmpty, Bool.or_eq_false_iff]
    constructor
    · obtain ⟨d, ds, hdd⟩ := List.exists_cons_of_ne_nil htne
      rw [hdd]
      rfl
    · obtain ⟨k, hk⟩ := List.exists_mem_of_ne_nil _ hcne
      obtain ⟨c, cs, hcc⟩ := List.exists_cons_of_ne_nil (List.ne_nil_of_mem (hctoDF k hk))
      rw [hcc]
      rfl
  have hnotls : "location_slug" ∉ cols (toDF data) := fun h => hls (mem_cols_toDF data _ h)
  have hsc1 : setCol (toDF data) "location_slug" slug =
      (toDF data).map (fun r => r ++ [("location_slug", slug)]) := by
    rw [setCol, if_neg hnotls]
  have hfields1 : ∀ r ∈ (toDF data).map (fun r => r ++ [("location_slug", slug)]),
      r.map Prod.fst = cols data ++ ["location_slug"] := by
    intro r hr
    obtain ⟨r0, hr0, rfl⟩ := List.mem_map.mp hr
    rw [List.map_append, mem_toDF_fields data r0 hr0]
    rfl
  have hnotla : "loaded_at" ∉
      cols ((toDF data).map (fun r => r ++ [("location_slug", slug)])) := by
    intro h
    obtain ⟨r, hr, hk⟩ := (mem_cols _ _).mp h
    rw [hfields1 r hr] at hk
    rcases List.mem_append.mp hk with h1 | h1
    · exact hla h1
    · simp at h1
  have heq : BQScript.enrich slug ts data =
      (toDF data).map (fun r => r ++ [("location_slug", slug), ("loaded_at", ts)]) := by
    rw [BQScript.enrich]
    rw [if_neg (by rw [hdfe]; exact Bool.false_ne_true)]
    rw [hsc1, setCol, if_neg hnotla, List.map_map]
    apply List.map_congr_left
    intro r _
    show (r ++ [("location_slug", slug)]) ++ [("loaded_at", ts)] =
      r ++ [("location_slug", slug), ("loaded_at", ts)]
    rw [List.append_assoc]
    rfl
  have hfields2 : ∀ r ∈ (toDF data).map
      (fun r => r ++ [("location_slug", slug), ("loaded_at", ts)]),
      r.map Prod.fst = cols data ++ ["location_slug", "loaded_at"] := by
    intro r hr
    obtain ⟨r0, hr0, rfl⟩ := List.mem_map.mp hr
    rw [List.map_append, mem_toDF_fields data r0 hr0]
    rfl
  refine ⟨heq, ?_, ?_, ?_, ?_⟩
  · rw [heq, List.length_map, toDF, List.length_map]
  · rw [List.all_eq_true]
    intro r hr
    rw [heq] at hr
    obtain ⟨r0, hr0, rfl⟩ := List.mem_map.mp hr
    have hf := mem_toDF_fields data r0 hr0
    have h1 : getField r0 "location_slug" = none :=
      (getField_eq_none r0 _).mpr (by rw [hf]; exact hls)
    have h2 : getField r0 "loaded_at" = none :=
      (getField_eq_none r0 _).mpr (by rw [hf]; exact hla)
    rw [Bool.and_eq_true, decide_eq_true_eq, decide_eq_true_eq]
    constructor
    · rw [getField_append_right _ _ _ h1, getField_cons, if_pos rfl]
    · rw [getField_append_right _ _ _ h2, getField_cons, if_neg (by decide),
        getField_cons, if_pos rfl]
  · have hrepl : (BQScript.enrich slug ts data).map (fun r => r.map Prod.fst) =
        List.replicate data.length (cols data ++ ["location_slug", "loaded_at"]) := by
      rw [List.eq_replicate_iff]
      constructor
      · rw [List.length_map, heq, List.length_map, toDF, List.length_map]
      · intro b hb
        obtain ⟨r, hr, rfl⟩ := List.mem_map.mp hb
        rw [heq] at hr
        exact hfields2 r hr
    rw [hrepl]
    have hrepl2 : data.map
        (fun (_ : Record) => cols data ++ ["location_slug", "loaded_at"]) =
        List.replicate data.length (cols data ++ ["location_slug", "loaded_at"]) := by
      rw [List.eq_replicate_iff]
      constructor
      · rw [List.length_map]
      · intro b hb
        obtain ⟨r, hr, rfl⟩ := List.mem_map.mp hb
        rfl
    rw [hrepl2]
  · rw [List.all_eq_true]
    intro p hp
    rw [heq, toDF, List.map_map] at hp
    have hzip := zip_map_self _ data p hp
    have hp1 : p.1 ∈ data := (List.of_mem_zip hp).1
    rw [List.all_eq_true]
    intro k hk
    rw [decide_eq_true_eq]
    have hkcols : k ∈ cols data := (mem_cols data k).mpr ⟨p.1, hp1, hk⟩
    obtain ⟨v, hv⟩ : ∃ v, getField p.1 k = some v := by
      cases hgf : getField p.1 k with
      | none => exact absurd hk ((getField_eq_none _ _).mp hgf)
      | some v => exact ⟨v, rfl⟩
    have hnorm : getField ((cols data).map
        (fun c => (c, (getField p.1 c).getD Value.null))) k = some v := by
      rw [getField_pairs, if_pos hkcols, hv]
      rfl
    rw [hzip, Function.comp_apply, getField_append_left _ _ _ _ hnorm, hv]

/-- Concrete check of C9 (amended): a one-row one-column collection gains
exactly the location_slug and loaded_at fields. -/
theorem c9_enrich_adds_two_fields_witness :
    (([[("a", Value.num 1)]] : List Record) ≠ [] ∧
     cols [[("a", Value.num 1)]] ≠ [] ∧
     "location_slug" ∉ cols [[("a", Value.num 1)]] ∧
     "loaded_at" ∉ cols [[("a", Value.num 1)]]) ∧
    (BQScript.enrich (Value.str "sl") (Value.str "T") [[("a", Value.num 1)]] =
      (toDF [[("a", Value.num 1)]]).map (fun r =>
        r ++ [("location_slug", Value.str "sl"), ("loaded_at", Value.str "T")]) ∧
    (BQScript.enrich (Value.str "sl") (Value.str "T") [[("a", Value.num 1)]]).length =
      ([[("a", Value.num 1)]] : List Record).length ∧
    (BQScript.enrich (Value.str "sl") (Value.str "T") [[("a", Value.num 1)]]).all (fun r =>
      decide (getField r "location_slug" = some (Value.str "sl")) &&
      decide (getField r "loaded_at" = some (Value.str "T"))) = true ∧
    (BQScript.enrich (Value.str "sl") (Value.str "T") [[("a", Value.num 1)]]).map
        (fun r => r.map Prod.fst) =
      ([[("a", Value.num 1)]] : List Record).map (fun _ =>
        cols [[("a", Value.num 1)]] ++ ["location_slug", "loaded_at"]) ∧
    (([[("a", Value.num 1)]] : List Record).zip
        (BQScript.enrich (Value.str "sl") (Value.str "T") [[("a", Value.num 1)]])).all
      (fun p => (p.1.map Prod.fst).all
        (fun k => decide (getField p.2 k = getField p.1 k))) = true) :=
  ⟨⟨by decide, by decide, by decide, by decide⟩,
   c9_enrich_adds_two_fields (Value.str "sl") (Value.str "T") [[("a", Value.num 1)]]
     (by decide) (by decide) (by decide) (by decide)⟩

/-! Rename and merge lemmas. -/

theorem dfEmpty_eq_false (rows : List Record) (hne : rows ≠ []) (hcne : cols rows ≠ []) :
    dfEmpty rows = false := by
  rw [dfEmpty, Bool.or_eq_false_iff]
  constructor
  · obtain ⟨d, ds, hdd⟩ := List.exists_cons_of_ne_nil hne
    rw [hdd]
    rfl
  · obtain ⟨c, cs, hcc⟩ := List.exists_cons_of_ne_nil hcne
    rw [hcc]
    rfl

theorem map_fst_renameRow (m : List (String × String)) (r : Record) :
    (r.map (fun kv => (renameBy m kv.1, kv.2))).map Prod.fst =
      (r.map Prod.fst).map (renameBy m) := by
  induction r with
  | nil => rfl
  | cons kv r ih => simp [ih]

theorem renameBy_single (old new s : String) :
    renameBy [(old, new)] s = if s = old then new else s := by
  by_cases h : s = old
  · rw [if_pos h, renameBy, List.find?_cons_of_pos _ (by simp [h])]
    rfl
  · rw [if_neg h, renameBy, List.find?_cons_of_neg _ (by
      simp only [beq_iff_eq]
      exact fun hh => h hh.symm)]
    rfl

theorem mem_cols_renameCols (rows : List Record) (m : List (String × String)) (k : String) :
    k ∈ cols (renameCols rows m) ↔ ∃ s ∈ cols rows, renameBy m s = k := by
  rw [mem_cols]
  constructor
  · rintro ⟨r, hr, hk⟩
    rw [renameCols] at hr
    obtain ⟨r0, hr0, rfl⟩ := List.mem_map.mp hr
    rw [map_fst_renameRow] at hk
    obtain ⟨s, hs, rfl⟩ := List.mem_map.mp hk
    exact ⟨s, (mem_cols rows s).mpr ⟨r0, hr0, hs⟩, rfl⟩
  · rintro ⟨s, hs, rfl⟩
    obtain ⟨r0, hr0, hsr⟩ := (mem_cols rows s).mp hs
    refine ⟨r0.map (fun kv => (renameBy m kv.1, kv.2)), ?_, ?_⟩
    · rw [renameCols]
      exact List.mem_map.mpr ⟨r0, hr0, rfl⟩
    · rw [map_fst_renameRow]
      exact List.mem_map.mpr ⟨s, hsr, rfl⟩

theorem notMem_renamed (cs : List String) (old new : String) (hne : new ≠ old) :
    old ∉ cs.map (renameBy [(old, new)]) := by
  intro h
  obtain ⟨s, _, hs⟩ := List.mem_map.mp h
  rw [renameBy_single] at hs
  by_cases h2 : s = old
  · rw [if_pos h2] at hs
    exact hne hs
  · rw [if_neg h2] at hs
    exact h2 hs

theorem old_notMem_cols_renameCol (rows : List Record) (old new : String) (hnn : new ≠ old) :
    old ∉ cols (renameCol rows old new) := by
  rw [renameCol]
  intro h
  obtain ⟨s, hs, hsr⟩ := (mem_cols_renameCols rows _ old).mp h
  rw [renameBy_single] at hsr
  by_cases h2 : s = old
  · rw [if_pos h2] at hsr
    exact hnn hsr
  · rw [if_neg h2] at hsr
    exact h2 hsr

theorem new_mem_cols_renameCol (rows : List Record) (old new : String) (h : old ∈ cols rows) :
    new ∈ cols (renameCol rows old new) := by
  rw [renameCol]
  exact (mem_cols_renameCols rows _ new).mpr ⟨old, h, by rw [renameBy_single, if_pos rfl]⟩

theorem kept_mem_cols_renameCol (rows : List Record) (old new k : String)
    (h : k ∈ cols rows) (hko : k ≠ old) :
    k ∈ cols (renameCol rows old new) := by
  rw [renameCol]
  exact (mem_cols_renameCols rows _ k).mpr ⟨k, h, by rw [renameBy_single, if_neg hko]⟩

theorem map_fst_dropCol (r : Record) (k : String) :
    (dropCol r k).map Prod.fst = (r.map Prod.fst).filter (fun c => decide (c ≠ k)) := by
  rw [dropCol]
  induction r with
  | nil => rfl
  | cons kv r ih =>
    rw [List.filter_cons, List.map_cons, List.filter_cons]
    by_cases h : kv.1 ≠ k
    · rw [if_pos (decide_eq_true h), if_pos (decide_eq_true h), List.map_cons, ih]
    · rw [if_neg (by simpa using h), if_neg (by simpa using h), ih]

theorem mem_mergeOn (L R : List Record) (key : String) (r : Record)
    (hr : r ∈ mergeOn L R key) :
    ∃ d ∈ L,
      r = d ++ ((cols R).filter (fun c => decide (c ≠ key))).map (fun c => (c, Value.null)) ∨
      ∃ mm ∈ R, r = d ++ dropCol mm key := by
  rw [mergeOn] at hr
  obtain ⟨d, hd, hin⟩ := List.mem_flatMap.mp hr
  refine ⟨d, hd, ?_⟩
  simp only [] at hin
  by_cases hms : (R.filter
      (fun m => decide (getField m key = getField d key))).isEmpty = true
  · rw [if_pos hms] at hin
    exact Or.inl (List.mem_singleton.mp hin)
  · rw [if_neg hms] at hin
    obtain ⟨mm, hmm, rfl⟩ := List.mem_map.mp hin
    exact Or.inr ⟨mm, List.mem_of_mem_filter hmm, rfl⟩

/-- Claim C8: the colliding price fields are renamed per source before the
orderlines frame is merged with the orders frame (orderlines price becomes
price_line, orders price becomes price_order), every merged row then
carries both price_line and price_order and no price column, and appending
looked-up fields never changes a field already present in a driving row. -/
theorem c8_price_rename_before_merge (df_ol df_orders : List Record)
    (d x : Record) (k : String)
    (huol : df_ol.all (fun r => decide (r.map Prod.fst = cols df_ol)) = true)
    (huor : df_orders.all (fun r => decide (r.map Prod.fst = cols df_orders)) = true)
    (hor : df_orders ≠ [])
    (hpol : "price" ∈ cols df_ol) (hpor : "price" ∈ cols df_orders)
    (hoid_ol : "orderID" ∈ cols df_ol) (hoid_or : "orderID" ∈ cols df_orders)
    (hsome : (getField d k).isSome = true) :
    ReportScript.merge_orders df_ol df_orders =
      mergeOn (renameCol df_ol "price" "price_line")
        (renameCol df_orders "price" "price_order") "orderID" ∧
    (ReportScript.merge_orders df_ol df_orders).all (fun r =>
      decide ("price" ∉ r.map Prod.fst) && decide ("price_line" ∈ r.map Prod.fst) &&
      decide ("price_order" ∈ r.map Prod.fst)) = true ∧
    getField (d ++ x) k = getField d k := by
  have huol' : ∀ r ∈ df_ol, r.map Prod.fst = cols df_ol := by
    intro r hr
    exact of_decide_eq_true (List.all_eq_true.mp huol r hr)
  have huor' : ∀ r ∈ df_orders, r.map Prod.fst = cols df_orders := by
    intro r hr
    exact of_decide_eq_true (List.all_eq_true.mp huor r hr)
  have hdfeor : dfEmpty df_orders = false :=
    dfEmpty_eq_false df_orders hor (List.ne_nil_of_mem hpor)
  have horderL : "orderID" ∈ cols (renameCol df_ol "price" "price_line") :=
    kept_mem_cols_renameCol df_ol "price" "price_line" "orderID" hoid_ol (by decide)
  have ha : ReportScript.merge_orders df_ol df_orders =
      mergeOn (renameCol df_ol "price" "price_line")
        (renameCol df_orders "price" "price_order") "orderID" := by
    simp only [ReportScript.merge_orders]
    rw [if_pos hpol, if_pos ⟨hdfeor, horderL, hoid_or⟩, if_pos hpor]
  have hR_noprice : "price" ∉ cols (renameCol df_orders "price" "price_order") :=
    old_notMem_cols_renameCol df_orders "price" "price_order" (by decide)
  have hR_po : "price_order" ∈ cols (renameCol df_orders "price" "price_order") :=
    new_mem_cols_renameCol df_orders "price" "price_order" hpor
  refine ⟨ha, ?_, ?_⟩
  · rw [List.all_eq_true]
    intro r hr
    rw [ha] at hr
    obtain ⟨dd, hdd, hcase⟩ := mem_mergeOn _ _ "orderID" r hr
    have hfd : dd.map Prod.fst = (cols df_ol).map (renameBy [("price", "price_line")]) := by
      rw [renameCol, renameCols] at hdd
      obtain ⟨r0, hr0, rfl⟩ := List.mem_map.mp hdd
      rw [map_fst_renameRow, huol' r0 hr0]
    have hd_noprice : "price" ∉ dd.map Prod.fst := by
      rw [hfd]
      exact notMem_renamed (cols df_ol) "price" "price_line" (by decide)
    have hd_pl : "price_line" ∈ dd.map Prod.fst := by
      rw [hfd]
      exact List.mem_map.mpr ⟨"price", hpol, by rw [renameBy_single, if_pos rfl]⟩
    rw [Bool.and_eq_true, Bool.and_eq_true, decide_eq_true_eq, decide_eq_true_eq,
      decide_eq_true_eq]
    rcases hcase with hnull | ⟨mm, hmm, hxeq⟩
    · rw [hnull, List.map_append, map_fst_pairs]
      refine ⟨⟨?_, ?_⟩, ?_⟩
      · intro h
        rcases List.mem_append.mp h with h1 | h1
        · exact hd_noprice h1
        · exact hR_noprice (List.mem_of_mem_filter h1)
      · exact List.mem_append.mpr (Or.inl hd_pl)
      · exact List.mem_append.mpr (Or.inr (List.mem_filter.mpr ⟨hR_po, by decide⟩))
    · have hfm : mm.map Prod.fst =
          (cols df_orders).map (renameBy [("price", "price_order")]) := by
        rw [renameCol, renameCols] at hmm
        obtain ⟨m0, hm0, rfl⟩ := List.mem_map.mp hmm
        rw [map_fst_renameRow, huor' m0 hm0]
      rw [hxeq, List.map_append, map_fst_dropCol]
      refine ⟨⟨?_, ?_⟩, ?_⟩
      · intro h
        rcases List.mem_append.mp h with h1 | h1
        · exact hd_noprice h1
        · have h2 := List.mem_of_mem_filter h1
          rw [hfm] at h2
          exact notMem_renamed (cols df_orders) "price" "price_order" (by decide) h2
      · exact List.mem_append.mpr (Or.inl hd_pl)
      · refine List.mem_append.mpr (Or.inr (List.mem_filter.mpr ⟨?_, by decide⟩))
        rw [hfm]
        exact List.mem_map.mpr ⟨"price", hpor, by rw [renameBy_single, if_pos rfl]⟩
  · obtain ⟨v, hv⟩ := Option.isSome_iff_exists.mp hsome
    rw [getField_append_left d x k v hv, hv]

/-- Concrete check of C8: single-row orderlines and orders frames, each
with an orderID and a price column: the merged row has price_line and
price_order and no price, and a field already present in a driving row is
unchanged by appending lookup fields. -/
theorem c8_price_rename_before_merge_witness :
    ((([[("orderID", Value.num 1), ("price", Value.num 5)]] : List Record).all
        (fun r => decide (r.map Prod.fst =
          cols [[("orderID", Value.num 1), ("price", Value.num 5)]])) = true) ∧
     (([[("orderID", Value.num 1), ("price", Value.num 9)]] : List Record).all
        (fun r => decide (r.map Prod.fst =
          cols [[("orderID", Value.num 1), ("price", Value.num 9)]])) = true) ∧
     ([[("orderID", Value.num 1), ("price", Value.num 9)]] : List Record) ≠ [] ∧
     "price" ∈ cols [[("orderID", Value.num 1), ("price", Value.num 5)]] ∧
     "price" ∈ cols [[("orderID", Value.num 1), ("price", Value.num 9)]] ∧
     "orderID" ∈ cols [[("orderID", Value.num 1), ("price", Value.num 5)]] ∧
     "orderID" ∈ cols [[("orderID", Value.num 1), ("price", Value.num 9)]] ∧
     (getField [("price_line", Value.num 5)] "price_line").isSome = true) ∧
    (ReportScript.merge_orders [[("orderID", Value.num 1), ("price", Value.num 5)]]
        [[("orderID", Value.num 1), ("price", Value.num 9)]] =
      mergeOn (renameCol [[("orderID", Value.num 1), ("price", Value.num 5)]]
          "price" "price_line")
        (renameCol [[("orderID", Value.num 1), ("price", Value.num 9)]]
          "price" "price_order") "orderID" ∧
     (ReportScript.merge_orders [[("orderID", Value.num 1), ("price", Value.num 5)]]
        [[("orderID", Value.num 1), ("price", Value.num 9)]]).all (fun r =>
      decide ("price" ∉ r.map Prod.fst) && decide ("price_line" ∈ r.map Prod.fst) &&
      decide ("price_order" ∈ r.map Prod.fst)) = true ∧
     getField ([("price_line", Value.num 5)] ++ [("price_line", Value.num 99)])
        "price_line" = getField [("price_line", Value.num 5)] "price_line") :=
  ⟨⟨by decide, by decide, by decide, by decide, by decide, by decide, by decide, by decide⟩,
   c8_price_rename_before_merge
     [[("orderID", Value.num 1), ("price", Value.num 5)]]
     [[("orderID", Value.num 1), ("price", Value.num 9)]]
     [("price_line", Value.num 5)] [("price_line", Value.num 99)] "price_line"
     (by decide) (by decide) (by decide) (by decide) (by decide) (by decide) (by decide)
     (by decide)⟩

/-! Run-level trace lemmas. -/

theorem isWrite_load_df (rows : List Record) (t : String) :
    ∀ ev ∈ BQScript.load_df rows t, isWrite ev = true := by
  intro ev hev
  rw [BQScript.load_df] at hev
  by_cases h : dfEmpty rows
  · rw [if_pos h] at hev
    simp at hev
  · rw [if_neg h] at hev
    rw [List.mem_singleton.mp hev]
    rfl

theorem isWrite_append {a b : List Event} (ha : ∀ ev ∈ a, isWrite ev = true)
    (hb : ∀ ev ∈ b, isWrite ev = true) : ∀ ev ∈ a ++ b, isWrite ev = true := by
  intro ev hev
  rcases List.mem_append.mp hev with h | h
  · exact ha ev h
  · exact hb ev h

theorem isWrite_sheet (b : Bool) (t : String) (n : Nat) :
    ∀ ev ∈ (if b then ([] : List Event) else [Event.wrote t n]), isWrite ev = true := by
  cases b with
  | true =>
    intro ev hev
    simp at hev
  | false =>
    intro ev hev
    simp at hev
    rw [hev]
    rfl

theorem isWrite_singleton_wrote (t : String) (n : Nat) :
    ∀ ev ∈ [Event.wrote t n], isWrite ev = true := by
  intro ev hev
  rw [List.mem_singleton.mp hev]
  rfl

theorem take5_append (a b c d e : Event) (ws : List Event) :
    ([a, b, c, d, e] ++ ws).take 5 = [a, b, c, d, e] := rfl

theorem drop5_append (a b c d e : Event) (ws : List Event) :
    ([a, b, c, d, e] ++ ws).drop 5 = ws := rfl

theorem bq_main_error_no_writes (tokenResp : TokenResponse)
    (servers : String → Nat → Response) (slug ts : Value) (base : String) (fuel : Nat)
    (tr : List Event) (e : RunErr)
    (hmain : BQScript.main tokenResp servers slug ts base fuel =
      some (tr, Except.error e)) :
    ∀ (t : String) (n : Nat), Event.wrote t n ∉ tr := by
  intro t n
  rw [BQScript.main] at hmain
  cases htok : BQScript.get_token tokenResp with
  | error e0 =>
    simp only [htok] at hmain
    rw [Option.some_inj, Prod.mk.injEq] at hmain
    rw [← hmain.1]
    simp
  | ok tok =>
    simp only [htok] at hmain
    cases h1 : BQScript.paged_get (servers "/sales/orders") fuel 0 [] with
    | none =>
      simp only [h1] at hmain
      exact Option.noConfusion hmain
    | some res1 =>
      simp only [h1] at hmain
      cases res1 with
      | error e1 =>
        rw [Option.some_inj, Prod.mk.injEq] at hmain
        rw [← hmain.1]
        simp
      | ok pr1 =>
        obtain ⟨ords, c1⟩ := pr1
        cases h2 : BQScript.paged_get (servers "/sales/orderlines") fuel 0 [] with
        | none =>
          simp only [h2] at hmain
          exact Option.noConfusion hmain
        | some res2 =>
          simp only [h2] at hmain
          cases res2 with
          | error e2 =>
            rw [Option.some_inj, Prod.mk.injEq] at hmain
            rw [← hmain.1]
            simp
          | ok pr2 =>
            obtain ⟨ols, c2⟩ := pr2
            cases h3 : BQScript.paged_get (servers "/staff") fuel 0 [] with
            | none =>
              simp only [h3] at hmain
              exact Option.noConfusion hmain
            | some res3 =>
              simp only [h3] at hmain
              cases res3 with
              | error e3 =>
                rw [Option.some_inj, Prod.mk.injEq] at hmain
                rw [← hmain.1]
                simp
              | ok pr3 =>
                obtain ⟨stf, c3⟩ := pr3
                cases h4 : BQScript.paged_get (servers "/menu/products") fuel 0 [] with
                | none =>
                  simp only [h4] at hmain
                  exact Option.noConfusion hmain
                | some res4 =>
                  simp only [h4] at hmain
                  cases res4 with
                  | error e4 =>
                    rw [Option.some_inj, Prod.mk.injEq] at hmain
                    rw [← hmain.1]
                    simp
                  | ok pr4 =>
                    obtain ⟨prods, c4⟩ := pr4
                    cases h5 : BQScript.paged_get (servers "/salepoints") fuel 0 [] with
                    | none =>
                      simp only [h5] at hmain
                      exact Option.noConfusion hmain
                    | some res5 =>
                      simp only [h5] at hmain
                      cases res5 with
                      | error e5 =>
                        rw [Option.some_inj, Prod.mk.injEq] at hmain
                        rw [← hmain.1]
                        simp
                      | ok pr5 =>
                        obtain ⟨sps, c5⟩ := pr5
                        rw [Option.some_inj, Prod.mk.injEq] at hmain
                        exact Except.noConfusion hmain.2

theorem bq_main_ok_writes_last (tokenResp : TokenResponse)
    (servers : String → Nat → Response) (slug ts : Value) (base : String) (fuel : Nat)
    (tr : List Event)
    (hmain : BQScript.main tokenResp servers slug ts base fuel =
      some (tr, Except.ok ())) :
    (∃ n1 n2 n3 n4 n5,
      tr.take 5 = [Event.fetched "/sales/orders" n1, Event.fetched "/sales/orderlines" n2,
        Event.fetched "/staff" n3, Event.fetched "/menu/products" n4,
        Event.fetched "/salepoints" n5]) ∧
    ∀ ev ∈ tr.drop 5, isWrite ev = true := by
  rw [BQScript.main] at hmain
  cases htok : BQScript.get_token tokenResp with
  | error e0 =>
    simp only [htok] at hmain
    rw [Option.some_inj, Prod.mk.injEq] at hmain
    exact Except.noConfusion hmain.2
  | ok tok =>
    simp only [htok] at hmain
    cases h1 : BQScript.paged_get (servers "/sales/orders") fuel 0 [] with
    | none =>
      simp only [h1] at hmain
      exact Option.noConfusion hmain
    | some res1 =>
      simp only [h1] at hmain
      cases res1 with
      | error e1 =>
        rw [Option.some_inj, Prod.mk.injEq] at hmain
        exact Except.noConfusion hmain.2
      | ok pr1 =>
        obtain ⟨ords, c1⟩ := pr1
        cases h2 : BQScript.paged_get (servers "/sales/orderlines") fuel 0 [] with
        | none =>
          simp only [h2] at hmain
          exact Option.noConfusion hmain
        | some res2 =>
          simp only [h2] at hmain
          cases res2 with
          | error e2 =>
            rw [Option.some_inj, Prod.mk.injEq] at hmain
            exact Except.noConfusion hmain.2
          | ok pr2 =>
            obtain ⟨ols, c2⟩ := pr2
            cases h3 : BQScript.paged_get (servers "/staff") fuel 0 [] with
            | none =>
              simp only [h3] at hmain
              exact Option.noConfusion hmain
            | some res3 =>
              simp only [h3] at hmain
              cases res3 with
              | error e3 =>
                rw [Option.some_inj, Prod.mk.injEq] at hmain
                exact Except.noConfusion hmain.2
              | ok pr3 =>
                obtain ⟨stf, c3⟩ := pr3
                cases h4 : BQScript.paged_get (servers "/menu/products") fuel 0 [] with
                | none =>
                  simp only [h4] at hmain
                  exact Option.noConfusion hmain
                | some res4 =>
                  simp only [h4] at hmain
                  cases res4 with
                  | error e4 =>
                    rw [Option.some_inj, Prod.mk.injEq] at hmain
                    exact Except.noConfusion hmain.2
                  | ok pr4 =>
                    obtain ⟨prods, c4⟩ := pr4
                    cases h5 : BQScript.paged_get (servers "/salepoints") fuel 0 [] with
                    | none =>
                      simp only [h5] at hmain
                      exact Option.noConfusion hmain
                    | some res5 =>
                      simp only [h5] at hmain
                      cases res5 with
                      | error e5 =>
                        rw [Option.some_inj, Prod.mk.injEq] at hmain
                        exact Except.noConfusion hmain.2
                      | ok pr5 =>
                        obtain ⟨sps, c5⟩ := pr5
                        rw [Option.some_inj, Prod.mk.injEq] at hmain
                        rw [← hmain.1]
                        constructor
                        · exact ⟨ords.length, ols.length, stf.length, prods.length,
                            sps.length, by rw [take5_append]⟩
                        · rw [drop5_append]
                          exact isWrite_append
                            (isWrite_append
                              (isWrite_append
                                (isWrite_append (isWrite_load_df _ _) (isWrite_load_df _ _))
                                (isWrite_load_df _ _))
                              (isWrite_load_df _ _))
                            (isWrite_load_df _ _)

theorem report_main_error_no_writes (tokenResp : TokenResponse)
    (servers : String → Nat → Response) (fuel : Nat)
    (tr : List Event) (e : RunErr)
    (hmain : ReportScript.build_report tokenResp servers fuel =
      some (tr, Except.error e)) :
    ∀ (t : String) (n : Nat), Event.wrote t n ∉ tr := by
  intro t n
  rw [ReportScript.build_report] at hmain
  cases htok : ReportScript.get_access_token tokenResp with
  | error e0 =>
    simp only [htok] at hmain
    rw [Option.some_inj, Prod.mk.injEq] at hmain
    rw [← hmain.1]
    simp
  | ok tok =>
    simp only [htok] at hmain
    cases h1 : ReportScript.paged_get (servers "/sales/orders") fuel 0 [] with
    | none =>
      simp only [h1] at hmain
      exact Option.noConfusion hmain
    | some res1 =>
      simp only [h1] at hmain
      cases res1 with
      | error e1 =>
        rw [Option.some_inj, Prod.mk.injEq] at hmain
        rw [← hmain.1]
        simp
      | ok pr1 =>
        obtain ⟨ords, c1⟩ := pr1
        cases h2 : ReportScript.paged_get (servers "/sales/orderlines") fuel 0 [] with
        | none =>
          simp only [h2] at hmain
          exact Option.noConfusion hmain
        | some res2 =>
          simp only [h2] at hmain
          cases res2 with
          | error e2 =>
            rw [Option.some_inj, Prod.mk.injEq] at hmain
            rw [← hmain.1]
            simp
          | ok pr2 =>
            obtain ⟨ols, c2⟩ := pr2
            cases h3 : ReportScript.paged_get (servers "/staff") fuel 0 [] with
            | none =>
              simp only [h3] at hmain
              exact Option.noConfusion hmain
            | some res3 =>
              simp only [h3] at hmain
              cases res3 with
              | error e3 =>
                rw [Option.some_inj, Prod.mk.injEq] at hmain
                rw [← hmain.1]
                simp
              | ok pr3 =>
                obtain ⟨stf, c3⟩ := pr3
                cases h4 : ReportScript.paged_get (servers "/menu/products") fuel 0 [] with
                | none =>
                  simp only [h4] at hmain
                  exact Option.noConfusion hmain
                | some res4 =>
                  simp only [h4] at hmain
                  cases res4 with
                  | error e4 =>
                    rw [Option.some_inj, Prod.mk.injEq] at hmain
                    rw [← hmain.1]
                    simp
                  | ok pr4 =>
                    obtain ⟨prods, c4⟩ := pr4
                    cases h5 : ReportScript.paged_get (servers "/salepoints") fuel 0 [] with
                    | none =>
                      simp only [h5] at hmain
                      exact Option.noConfusion hmain
                    | some res5 =>
                      simp only [h5] at hmain
                      cases res5 with
                      | error e5 =>
                        rw [Option.some_inj, Prod.mk.injEq] at hmain
                        rw [← hmain.1]
                        simp
                      | ok pr5 =>
                        obtain ⟨sps, c5⟩ := pr5
                        rw [Option.some_inj, Prod.mk.injEq] at hmain
                        exact Except.noConfusion hmain.2

theorem report_main_ok_writes_last (tokenResp : TokenResponse)
    (servers : String → Nat → Response) (fuel : Nat) (tr : List Event)
    (hmain : ReportScript.build_report tokenResp servers fuel =
      some (tr, Except.ok ())) :
    (∃ n1 n2 n3 n4 n5,
      tr.take 5 = [Event.fetched "/sales/orders" n1, Event.fetched "/sales/orderlines" n2,
        Event.fetched "/staff" n3, Event.fetched "/menu/products" n4,
        Event.fetched "/salepoints" n5]) ∧
    ∀ ev ∈ tr.drop 5, isWrite ev = true := by
  rw [ReportScript.build_report] at hmain
  cases htok : ReportScript.get_access_token tokenResp with
  | error e0 =>
    simp only [htok] at hmain
    rw [Option.some_inj, Prod.mk.injEq] at hmain
    exact Except.noConfusion hmain.2
  | ok tok =>
    simp only [htok] at hmain
    cases h1 : ReportScript.paged_get (servers "/sales/orders") fuel 0 [] with
    | none =>
      simp only [h1] at hmain
      exact Option.noConfusion hmain
    | some res1 =>
      simp only [h1] at hmain
      cases res1 with
      | error e1 =>
        rw [Option.some_inj, Prod.mk.injEq] at hmain
        exact Except.noConfusion hmain.2
      | ok pr1 =>
        obtain ⟨ords, c1⟩ := pr1
        cases h2 : ReportScript.paged_get (servers "/sales/orderlines") fuel 0 [] with
        | none =>
          simp only [h2] at hmain
          exact Option.noConfusion hmain
        | some res2 =>
          simp only [h2] at hmain
          cases res2 with
          | error e2 =>
            rw [Option.some_inj, Prod.mk.injEq] at hmain
            exact Except.noConfusion hmain.2
          | ok pr2 =>
            obtain ⟨ols, c2⟩ := pr2
            cases h3 : ReportScript.paged_get (servers "/staff") fuel 0 [] with
            | none =>
              simp only [h3] at hmain
              exact Option.noConfusion hmain
            | some res3 =>
              simp only [h3] at hmain
              cases res3 with
              | error e3 =>
                rw [Option.some_inj, Prod.mk.injEq] at hmain
                exact Except.noConfusion hmain.2
              | ok pr3 =>
                obtain ⟨stf, c3⟩ := pr3
                cases h4 : ReportScript.paged_get (servers "/menu/products") fuel 0 [] with
                | none =>
                  simp only [h4] at hmain
                  exact Option.noConfusion hmain
                | some res4 =>
                  simp only [h4] at hmain
                  cases res4 with
                  | error e4 =>
                    rw [Option.some_inj, Prod.mk.injEq] at hmain
                    exact Except.noConfusion hmain.2
                  | ok pr4 =>
                    obtain ⟨prods, c4⟩ := pr4
                    cases h5 : ReportScript.paged_get (servers "/salepoints") fuel 0 [] with
                    | none =>
                      simp only [h5] at hmain
                      exact Option.noConfusion hmain
                    | some res5 =>
                      simp only [h5] at hmain
                      cases res5 with
                      | error e5 =>
                        rw [Option.some_inj, Prod.mk.injEq] at hmain
                        exact Except.noConfusion hmain.2
                      | ok pr5 =>
                        obtain ⟨sps, c5⟩ := pr5
                        rw [Option.some_inj, Prod.mk.injEq] at hmain
                        rw [← hmain.1]
                        constructor
                        · exact ⟨ords.length, ols.length, stf.length, prods.length,
                            sps.length, by rw [take5_append]⟩
                        · rw [drop5_append]
                          exact isWrite_append
                            (isWrite_append
                              (isWrite_append
                                (isWrite_append
                                  (isWrite_append (isWrite_singleton_wrote _ _)
                                    (isWrite_sheet _ _ _))
                                  (isWrite_sheet _ _ _))
                                (isWrite_sheet _ _ _))
                              (isWrite_sheet _ _ _))
                            (isWrite_sheet _ _ _)

/-- Claim C5: in both pipeline runs a failing data-endpoint page request
(for instance a 401) anywhere in the fetch sequence aborts the run with
that auth/HTTP error and a trace containing no sink write at all, and any
run whose result is an error writes nothing; a run that completes performed
all five endpoint fetches first — its trace is the five fetch events
followed exclusively by sink-write events. -/
theorem c5_writes_only_after_all_fetches (tokenResp : Fresto.TokenResponse)
    (servers : String → Nat → Fresto.Response) (slug ts : Value) (base : String)
    (fuel : Nat) :
    (∀ e, BQScript.get_token tokenResp = Except.error e →
      BQScript.main tokenResp servers slug ts base fuel =
        some ([], Except.error (RunErr.auth e))) ∧
    (∀ tok e, BQScript.get_token tokenResp = Except.ok tok →
      BQScript.paged_get (servers "/sales/orders") fuel 0 [] = some (Except.error e) →
      BQScript.main tokenResp servers slug ts base fuel =
        some ([], Except.error (RunErr.fetch e))) ∧
    (∀ tok ords c1 e, BQScript.get_token tokenResp = Except.ok tok →
      BQScript.paged_get (servers "/sales/orders") fuel 0 [] =
        some (Except.ok (ords, c1)) →
      BQScript.paged_get (servers "/sales/orderlines") fuel 0 [] =
        some (Except.error e) →
      BQScript.main tokenResp servers slug ts base fuel =
        some ([Event.fetched "/sales/orders" ords.length],
          Except.error (RunErr.fetch e))) ∧
    (∀ tok ords c1 ols c2 e, BQScript.get_token tokenResp = Except.ok tok →
      BQScript.paged_get (servers "/sales/orders") fuel 0 [] =
        some (Except.ok (ords, c1)) →
      BQScript.paged_get (servers "/sales/orderlines") fuel 0 [] =
        some (Except.ok (ols, c2)) →
      BQScript.paged_get (servers "/staff") fuel 0 [] = some (Except.error e) →
      BQScript.main tokenResp servers slug ts base fuel =
        some ([Event.fetched "/sales/orders" ords.length,
          Event.fetched "/sales/orderlines" ols.length],
          Except.error (RunErr.fetch e))) ∧
    (∀ tok ords c1 ols c2 stf c3 e, BQScript.get_token tokenResp = Except.ok tok →
      BQScript.paged_get (servers "/sales/orders") fuel 0 [] =
        some (Except.ok (ords, c1)) →
      BQScript.paged_get (servers "/sales/orderlines") fuel 0 [] =
        some (Except.ok (ols, c2)) →
      BQScript.paged_get (servers "/staff") fuel 0 [] = some (Except.ok (stf, c3)) →
      BQScript.paged_get (servers "/menu/products") fuel 0 [] = some (Except.error e) →
      BQScript.main tokenResp servers slug ts base fuel =
        some ([Event.fetched "/sales/orders" ords.length,
          Event.fetched "/sales/orderlines" ols.length,
          Event.fetched "/staff" stf.length],
          Except.error (RunErr.fetch e))) ∧
    (∀ tok ords c1 ols c2 stf c3 prods c4 e,
      BQScript.get_token tokenResp = Except.ok tok →
      BQScript.paged_get (servers "/sales/orders") fuel 0 [] =
        some (Except.ok (ords, c1)) →
      BQScript.paged_get (servers "/sales/orderlines") fuel 0 [] =
        some (Except.ok (ols, c2)) →
      BQScript.paged_get (servers "/staff") fuel 0 [] = some (Except.ok (stf, c3)) →
      BQScript.paged_get (servers "/menu/products") fuel 0 [] =
        some (Except.ok (prods, c4)) →
      BQScript.paged_get (servers "/salepoints") fuel 0 [] = some (Except.error e) →
      BQScript.main tokenResp servers slug ts base fuel =
        some ([Event.fetched "/sales/orders" ords.length,
          Event.fetched "/sales/orderlines" ols.length,
          Event.fetched "/staff" stf.length,
          Event.fetched "/menu/products" prods.length],
          Except.error (RunErr.fetch e))) ∧
    (∀ tr e, BQScript.main tokenResp servers slug ts base fuel =
        some (tr, Except.error e) →
      ∀ t n, Event.wrote t n ∉ tr) ∧
    (∀ tr, BQScript.main tokenResp servers slug ts base fuel =
        some (tr, Except.ok ()) →
      (∃ n1 n2 n3 n4 n5, tr.take 5 =
        [Event.fetched "/sales/orders" n1, Event.fetched "/sales/orderlines" n2,
         Event.fetched "/staff" n3, Event.fetched "/menu/products" n4,
         Event.fetched "/salepoints" n5]) ∧
      ∀ ev ∈ tr.drop 5, isWrite ev = true) ∧
    (∀ e, ReportScript.get_access_token tokenResp = Except.error e →
      ReportScript.build_report tokenResp servers fuel =
        some ([], Except.error (RunErr.auth e))) ∧
    (∀ tok e, ReportScript.get_access_token tokenResp = Except.ok tok →
      ReportScript.paged_get (servers "/sales/orders") fuel 0 [] =
        some (Except.error e) →
      ReportScript.build_report tokenResp servers fuel =
        some ([], Except.error (RunErr.fetch e))) ∧
    (∀ tok ords c1 e, ReportScript.get_access_token tokenResp = Except.ok tok →
      ReportScript.paged_get (servers "/sales/orders") fuel 0 [] =
        some (Except.ok (ords, c1)) →
      ReportScript.paged_get (servers "/sales/orderlines") fuel 0 [] =
        some (Except.error e) →
      ReportScript.build_report tokenResp servers fuel =
        some ([Event.fetched "/sales/orders" ords.length],
          Except.error (RunErr.fetch e))) ∧
    (∀ tok ords c1 ols c2 e, ReportScript.get_access_token tokenResp = Except.ok tok →
      ReportScript.paged_get (servers "/sales/orders") fuel 0 [] =
        some (Except.ok (ords, c1)) →
      ReportScript.paged_get (servers "/sales/orderlines") fuel 0 [] =
        some (Except.ok (ols, c2)) →
      ReportScript.paged_get (servers "/staff") fuel 0 [] = some (Except.error e) →
      ReportScript.build_report tokenResp servers fuel =
        some ([Event.fetched "/sales/orders" ords.length,
          Event.fetched "/sales/orderlines" ols.length],
          Except.error (RunErr.fetch e))) ∧
    (∀ tok ords c1 ols c2 stf c3 e,
      ReportScript.get_access_token tokenResp = Except.ok tok →
      ReportScript.paged_get (servers "/sales/orders") fuel 0 [] =
        some (Except.ok (ords, c1)) →
      ReportScript.paged_get (servers "/sales/orderlines") fuel 0 [] =
        some (Except.ok (ols, c2)) →
      ReportScript.paged_get (servers "/staff") fuel 0 [] = some (Except.ok (stf, c3)) →
      ReportScript.paged_get (servers "/menu/products") fuel 0 [] =
        some (Except.error e) →
      ReportScript.build_report tokenResp servers fuel =
        some ([Event.fetched "/sales/orders" ords.length,
          Event.fetched "/sales/orderlines" ols.length,
          Event.fetched "/staff" stf.length],
          Except.error (RunErr.fetch e))) ∧
    (∀ tok ords c1 ols c2 stf c3 prods c4 e,
      ReportScript.get_access_token tokenResp = Except.ok tok →
      ReportScript.paged_get (servers "/sales/orders") fuel 0 [] =
        some (Except.ok (ords, c1)) →
      ReportScript.paged_get (servers "/sales/orderlines") fuel 0 [] =
        some (Except.ok (ols, c2)) →
      ReportScript.paged_get (servers "/staff") fuel 0 [] = some (Except.ok (stf, c3)) →
      ReportScript.paged_get (servers "/menu/products") fuel 0 [] =
        some (Except.ok (prods, c4)) →
      ReportScript.paged_get (servers "/salepoints") fuel 0 [] =
        some (Except.error e) →
      ReportScript.build_report tokenResp servers fuel =
        some ([Event.fetched "/sales/orders" ords.length,
          Event.fetched "/sales/orderlines" ols.length,
          Event.fetched "/staff" stf.length,
          Event.fetched "/menu/products" prods.length],
          Except.error (RunErr.fetch e))) ∧
    (∀ tr e, ReportScript.build_report tokenResp servers fuel =
        some (tr, Except.error e) →
      ∀ t n, Event.wrote t n ∉ tr) ∧
    (∀ tr, ReportScript.build_report tokenResp servers fuel =
        some (tr, Except.ok ()) →
      (∃ n1 n2 n3 n4 n5, tr.take 5 =
        [Event.fetched "/sales/orders" n1, Event.fetched "/sales/orderlines" n2,
         Event.fetched "/staff" n3, Event.fetched "/menu/products" n4,
         Event.fetched "/salepoints" n5]) ∧
      ∀ ev ∈ tr.drop 5, isWrite ev = true) := by
  refine ⟨?_, ?_, ?_, ?_, ?_, ?_, ?_, ?_, ?_, ?_, ?_, ?_, ?_, ?_, ?_, ?_⟩
  · intro e he
    simp only [BQScript.main, he]
  · intro tok e ht h1
    simp only [BQScript.main, ht, h1]
  · intro tok ords c1 e ht h1 h2
    simp only [BQScript.main, ht, h1, h2]
  · intro tok ords c1 ols c2 e ht h1 h2 h3
    simp only [BQScript.main, ht, h1, h2, h3]
  · intro tok ords c1 ols c2 stf c3 e ht h1 h2 h3 h4
    simp only [BQScript.main, ht, h1, h2, h3, h4]
  · intro tok ords c1 ols c2 stf c3 prods c4 e ht h1 h2 h3 h4 h5
    simp only [BQScript.main, ht, h1, h2, h3, h4, h5]
  · intro tr e h
    exact bq_main_error_no_writes tokenResp servers slug ts base fuel tr e h
  · intro tr h
    exact bq_main_ok_writes_last tokenResp servers slug ts base fuel tr h
  · intro e he
    simp only [ReportScript.build_report, he]
  · intro tok e ht h1
    simp only [ReportScript.build_report, ht, h1]
  · intro tok ords c1 e ht h1 h2
    simp only [ReportScript.build_report, ht, h1, h2]
  · intro tok ords c1 ols c2 e ht h1 h2 h3
    simp only [ReportScript.build_report, ht, h1, h2, h3]
  · intro tok ords c1 ols c2 stf c3 e ht h1 h2 h3 h4
    simp only [ReportScript.build_report, ht, h1, h2, h3, h4]
  · intro tok ords c1 ols c2 stf c3 prods c4 e ht h1 h2 h3 h4 h5
    simp only [ReportScript.build_report, ht, h1, h2, h3, h4, h5]
  · intro tr e h
    exact report_main_error_no_writes tokenResp servers fuel tr e h
  · intro tr h
    exact report_main_ok_writes_last tokenResp servers fuel tr h

/-- Concrete check of C5: a server answering 401 on every page makes the
BigQuery run abort on the first endpoint with the HTTP error and an empty
trace — no write reaches the sink. -/
theorem c5_writes_only_after_all_fetches_witness :
    BQScript.get_token (TokenResponse.mk 200 "ok" (some "tok")) = Except.ok "tok" ∧
    BQScript.paged_get ((fun _ _ => Response.mk 401 (Body.obj none))
      "/sales/orders") 1 0 [] =
      some (Except.error (FetchErr.http 401 (some (Body.obj none)))) ∧
    BQScript.main (TokenResponse.mk 200 "ok" (some "tok"))
        (fun _ _ => Response.mk 401 (Body.obj none)) Value.null Value.null "p.d" 1 =
      some ([], Except.error (RunErr.fetch (FetchErr.http 401 (some (Body.obj none))))) :=
  ⟨rfl, rfl,
   (c5_writes_only_after_all_fetches (TokenResponse.mk 200 "ok" (some "tok"))
      (fun _ _ => Response.mk 401 (Body.obj none)) Value.null Value.null "p.d" 1).2.1
     "tok" (FetchErr.http 401 (some (Body.obj none))) rfl rfl⟩

end Theorems
